import Mathlib

/-!
# ZALUZIE: frame encoder and OOK waveform transmitter

A shallow embedding of `src/main.cpp` (ESP8266 + CC1101 blind controller).

* Arduino `String` values are lists of characters.
* `int` values are mathematical integers; the one addition the program performs on
  them (`base + idx`) wraps to 32 bits, as the target does.
* Every effect that can be observed from outside (serial output, GPIO register writes,
  busy-wait delays, radio mode switches, interrupt masking) is an `Event`; an effectful
  function returns its result together with the list of events it performs, in order.
* The status returned by `radio.transmitDirectAsync()` is an input of `sendMessage`.
* An HTTP handler is represented by the `sendMessage` calls it makes, in order; the
  Arduino `String::toInt` conversion is a parameter of `handleDynamic`.
-/

namespace Zaluzie

/-! ## Observable events -/

/-- One observable effect of the firmware. -/
inductive Event where
  /-- Call of `Serial.printf(fmt, arg)`. -/
  | serialPrintf (fmt : String) (arg : Int)
  /-- Call of `gpio_output_set(set_mask, clear_mask, enable_mask, disable_mask)`. -/
  | gpio_output_set (set_mask clear_mask enable_mask disable_mask : Nat)
  /-- Call of `delayMicroseconds(us)`. -/
  | delayMicroseconds (us : Nat)
  /-- Call of `radio.transmitDirectAsync()`. -/
  | transmitDirectAsync
  /-- Call of `noInterrupts()`. -/
  | noInterrupts
  /-- Call of `interrupts()`. -/
  | interrupts
  /-- Call of `radio.packetMode()`. -/
  | packetMode
  /-- Call of `delay(ms)`. -/
  | delay (ms : Nat)
  deriving DecidableEq, Repr

/-! ## Constants (main.cpp, lines 20-44) -/

def PIN_GDO0 : Nat := 4

def START_HIGH_US : Nat := 4000
def START_LOW_US : Nat := 4000
def BIT0_HIGH_US : Nat := 642
def BIT1_HIGH_US : Nat := 1300
def GAP_LOW_US : Nat := 750

def CONST_17 : List Char := "00001001110011111".toList
def ACTION_DOWN : List Char := "10".toList
def ACTION_STOP : List Char := "10".toList
def ACTION_UP : List Char := "00".toList

def BASE_UP : Int := 346
def BASE_DOWN : Int := 217
def BASE_STOP : Int := 474

/-- The RadioLib status code for success (`RADIOLIB_ERR_NONE` in RadioLib's `TypeDef.h`). -/
def RADIOLIB_ERR_NONE : Int := 0

/-! ## Machine arithmetic -/

/-- The value an `int` expression has after wrapping to 32 bits (two's complement). -/
def wrapInt32 (x : Int) : Int := (x + 2147483648) % 4294967296 - 2147483648

/-- Storing an `int` into a `char` cell of a `String` keeps its low 8 bits. -/
def charOfInt (x : Int) : Char := Char.ofNat (x % 256).toNat

/-! ## Low-level GPIO helpers and waveform building (lines 47-80) -/

def gpioHigh (pin : Nat) : List Event :=
  [Event.gpio_output_set (1 <<< pin) 0 (1 <<< pin) 0]

def gpioLow (pin : Nat) : List Event :=
  [Event.gpio_output_set 0 (1 <<< pin) (1 <<< pin) 0]

def txHigh (us : Nat) : List Event :=
  gpioHigh PIN_GDO0 ++ [Event.delayMicroseconds us]

def txLow (us : Nat) : List Event :=
  gpioLow PIN_GDO0 ++ [Event.delayMicroseconds us]

def sendPreambleAndTrailer : List Event :=
  txLow START_LOW_US ++ txHigh START_HIGH_US ++ txLow START_LOW_US ++
    txHigh START_HIGH_US ++ txLow START_LOW_US

/-- The loop of `sendBitString`, one iteration per character, front to back. -/
def sendBitString : List Char → List Event
  | [] => []
  | c :: bits =>
    let one := decide (c = '1')
    txHigh (if one then BIT1_HIGH_US else BIT0_HIGH_US) ++ txLow GAP_LOW_US ++
      sendBitString bits

/-! ## Bit-field encoders (lines 82-111) -/

/-- The function `byteArrayFromInt`: the returned string and the serial output. -/
def byteArrayFromInt (input : Int) : List Char × List Event :=
  if input < 0 ∨ input > 15 then
    ("0000".toList, [Event.serialPrintf "Input: %d is outside <0,15> range\n" input])
  else
    let byteArr := "0000".toList
    let byteArr := byteArr.set 3 (charOfInt (Int.land input 1 + 48))
    let byteArr := byteArr.set 2 (charOfInt (Int.land (input >>> (1 : Nat)) 1 + 48))
    let byteArr := byteArr.set 1 (charOfInt (Int.land (input >>> (2 : Nat)) 1 + 48))
    let byteArr := byteArr.set 0 (charOfInt (Int.land (input >>> (3 : Nat)) 1 + 48))
    (byteArr, [])

/-- The loop `for (int i = 0; i < 9; i++) byteArr[8 - i] = ((input >> i) & 1) + '0';`
started at counter `i`, with `fuel` bounding the number of iterations. -/
def byteArrayFromInt9bitLoop (input : Int) : Nat → Nat → List Char → List Char
  | 0, _, byteArr => byteArr
  | fuel + 1, i, byteArr =>
    if i < 9 then
      byteArrayFromInt9bitLoop input fuel (i + 1)
        (byteArr.set (8 - i) (charOfInt (Int.land (input >>> i) 1 + 48)))
    else byteArr

/-- The function `byteArrayFromInt9bit`: the returned string and the serial output. -/
def byteArrayFromInt9bit (input : Int) : List Char × List Event :=
  if input < 0 ∨ input > 511 then
    ("000000000".toList, [Event.serialPrintf "Input: %d is outside <0,511> range\n" input])
  else
    (byteArrayFromInt9bitLoop input 9 0 "000000000".toList, [])

/-! ## Frame building and transmission (lines 113-141) -/

/-- The string `payload` that `sendMessage` assembles (lines 114-118). -/
def sendMessagePayload (base idx : Int) (const17 action2 : List Char) : List Char :=
  let idxCounter := (byteArrayFromInt9bit (wrapInt32 (base + idx))).1
  let byteArray := (byteArrayFromInt idx).1
  "000".toList ++ byteArray ++ const17 ++ "000000".toList ++ idxCounter ++ action2

/-- The loop `for (int r = 0; r < repeats; ++r) { sendPreambleAndTrailer();
sendBitString(payload); }`, given the number of iterations still to run. -/
def sendMessageLoop (payload : List Char) : Nat → List Event
  | 0 => []
  | n + 1 => sendPreambleAndTrailer ++ sendBitString payload ++ sendMessageLoop payload n

/-- The function `sendMessage`. `st` is the status `radio.transmitDirectAsync()` returns
when it is called. The result is the returned `bool` and the events performed. -/
def sendMessage (base idx : Int) (const17 action2 : List Char) (repeats : Int) (st : Int) :
    Bool × List Event :=
  let log9 := (byteArrayFromInt9bit (wrapInt32 (base + idx))).2
  let log4 := (byteArrayFromInt idx).2
  let payload := sendMessagePayload base idx const17 action2
  if payload.length ≠ 41 then
    (false, log9 ++ log4 ++ [Event.serialPrintf "Bad length: %d bits\n" payload.length])
  else if st ≠ RADIOLIB_ERR_NONE then
    (false, log9 ++ log4 ++
      [Event.transmitDirectAsync, Event.serialPrintf "transmitDirectAsync failed: %d\n" st])
  else
    (true, log9 ++ log4 ++ [Event.transmitDirectAsync] ++
      [Event.noInterrupts] ++
      sendMessageLoop payload repeats.toNat ++
      sendPreambleAndTrailer ++
      [Event.interrupts] ++
      [Event.packetMode, Event.delay 1])

/-! ## Command selection in the HTTP handlers (lines 155-257) -/

/-- The arguments of one `sendMessage(base, idx, const17, action2)` call made by a handler
(`repeats` is left at its default). -/
structure SendCall where
  base : Int
  idx : Int
  const17 : List Char
  action2 : List Char
  deriving DecidableEq, Repr

/-- Body of the loop of `handleLower` for loop counter `i`. -/
def handleLowerCall (i : Int) : SendCall :=
  if i = 1 then ⟨BASE_UP, i, CONST_17, ACTION_UP⟩
  else ⟨BASE_DOWN, i, CONST_17, ACTION_DOWN⟩

/-- Body of the loop of `handleRaise` for loop counter `i`. -/
def handleRaiseCall (i : Int) : SendCall :=
  if i = 1 then ⟨BASE_DOWN, i, CONST_17, ACTION_DOWN⟩
  else ⟨BASE_UP, i, CONST_17, ACTION_UP⟩

/-- Body of the loop of `handlePause` for loop counter `i`. -/
def handlePauseCall (i : Int) : SendCall :=
  ⟨BASE_STOP, i, CONST_17, ACTION_STOP⟩

/-- The `sendMessage` calls of `handleLower`, `for (int i = 0; i <= 15; i++)`. -/
def handleLower : List SendCall :=
  (List.range 16).map (fun (i : Nat) => handleLowerCall (i : Int))

/-- The `sendMessage` calls of `handleRaise`. -/
def handleRaise : List SendCall :=
  (List.range 16).map (fun (i : Nat) => handleRaiseCall (i : Int))

/-- The `sendMessage` calls of `handlePause`. -/
def handlePause : List SendCall :=
  (List.range 16).map (fun (i : Nat) => handlePauseCall (i : Int))

/-- The `sendMessage` call of `handleDynamic` for the request path `uri`, if it makes one.
`toInt` is the Arduino `String::toInt` conversion applied to `uri.substring(7)`. -/
def handleDynamic (toInt : List Char → Int) (uri : List Char) : Option SendCall :=
  if uri.take 7 = "/raise/".toList then
    let value := toInt (uri.drop 7)
    if value = 1 then some ⟨BASE_DOWN, value, CONST_17, ACTION_DOWN⟩
    else some ⟨BASE_UP, value, CONST_17, ACTION_UP⟩
  else if uri.take 7 = "/lower/".toList then
    let value := toInt (uri.drop 7)
    if value = 1 then some ⟨BASE_UP, value, CONST_17, ACTION_UP⟩
    else some ⟨BASE_DOWN, value, CONST_17, ACTION_DOWN⟩
  else if uri.take 7 = "/pause/".toList then
    let value := toInt (uri.drop 7)
    some ⟨BASE_STOP, value, CONST_17, ACTION_STOP⟩
  else none

/-! ## Views used to state the properties -/

/-- Big-endian binary value of a string of binary digits. -/
def binValue (s : List Char) : Nat :=
  s.foldl (fun acc c => 2 * acc + (if c = '1' then 1 else 0)) 0

/-- The pulse train of a trace: every GPIO write that is directly followed by a
microsecond delay is one timed step `(level, duration)`; the level is high exactly when
the write sets the bit of `PIN_GDO0`. -/
def pulseTrain : List Event → List (Bool × Nat)
  | Event.gpio_output_set s _ _ _ :: Event.delayMicroseconds us :: rest =>
    (decide (s &&& (1 <<< PIN_GDO0) ≠ 0), us) :: pulseTrain rest
  | _ :: rest => pulseTrain rest
  | [] => []

/-- The events strictly between the first `noInterrupts` and the next `interrupts`. -/
def criticalSection (trace : List Event) : List Event :=
  ((trace.dropWhile (fun e => decide (e ≠ Event.noInterrupts))).drop 1).takeWhile
    (fun e => decide (e ≠ Event.interrupts))

/-- Is a write to the GPIO output register. -/
def isGpioWrite : Event → Bool
  | Event.gpio_output_set _ _ _ _ => true
  | _ => false

/-- Is a busy-wait delay of the pulse generator. -/
def isPulseDelay : Event → Bool
  | Event.delayMicroseconds _ => true
  | _ => false

/-- Is a line of serial output. -/
def isSerial : Event → Bool
  | Event.serialPrintf _ _ => true
  | _ => false

/-- The binary digit character of a bit. -/
def bitChar (b : Bool) : Char := if b then '1' else '0'

/-- The string `s` has `w` characters, all binary digits, its big-endian binary value is
`v`, and bit `k` of `v` (counted from the least significant) is at position `w - 1 - k`. -/
def Encodes (w : Nat) (v : Int) (s : List Char) : Prop :=
  s.length = w ∧ (∀ c ∈ s, c = '0' ∨ c = '1') ∧ (binValue s : Int) = v ∧
    ∀ k, k < w → s[w - 1 - k]? = some (bitChar (Int.testBit v k))

/-- The three actions of a command. -/
inductive Action where
  | RAISE
  | LOWER
  | PAUSE
  deriving DecidableEq, Repr

/-- The call the all-device handler of an action makes for loop counter `i`. -/
def handlerCall : Action → Int → SendCall
  | Action.RAISE => handleRaiseCall
  | Action.LOWER => handleLowerCall
  | Action.PAUSE => handlePauseCall

/-- The request path prefix of the single-device route of an action. -/
def routePath : Action → List Char
  | Action.RAISE => "/raise/".toList
  | Action.LOWER => "/lower/".toList
  | Action.PAUSE => "/pause/".toList

/-- The base constant and action code that belong to an action itself. -/
def ownPair : Action → Int × List Char
  | Action.RAISE => (BASE_UP, ACTION_UP)
  | Action.LOWER => (BASE_DOWN, ACTION_DOWN)
  | Action.PAUSE => (BASE_STOP, ACTION_STOP)

/-- The `sendMessage` calls of the all-device handler of an action, in order. -/
def handlerCalls : Action → List SendCall
  | Action.RAISE => handleRaise
  | Action.LOWER => handleLower
  | Action.PAUSE => handlePause

/-- The base constant and action code of a call. -/
def SendCall.pair (c : SendCall) : Int × List Char := (c.base, c.action2)

/-- The timed steps that render a bit string: per character, in order, high for 1300 us
for `'1'` and 642 us otherwise, then low for 750 us. -/
def bitPulses (s : List Char) : List (Bool × Nat) :=
  s.flatMap (fun c => [(true, if c = '1' then 1300 else 642), (false, 750)])

/-- The timed steps of one preamble/trailer burst. -/
def preamblePulses : List (Bool × Nat) :=
  [(false, 4000), (true, 4000), (false, 4000), (true, 4000), (false, 4000)]

/-- Is a GPIO write or a pulse delay. -/
def isPulseEvent (e : Event) : Bool := isGpioWrite e || isPulseDelay e

/-- The sum of the nominal durations of the microsecond delays of a trace. -/
def delaySum : List Event → Nat
  | [] => 0
  | Event.delayMicroseconds us :: rest => us + delaySum rest
  | _ :: rest => delaySum rest

/-- The frame of the command (action, device index): the payload `sendMessage` builds
from the arguments the handlers pass for it. -/
def commandFrame (a : Action) (i : Int) : List Char :=
  sendMessagePayload (handlerCall a i).base (handlerCall a i).idx (handlerCall a i).const17
    (handlerCall a i).action2

/-- What an event does to the output of pin `pin`, read from the four masks of
`gpio_output_set`: `some true` when the write sets the output bit of the pin and enables
its driver without clearing or disabling it (the pin is driven high), `some false` when
the write clears the output bit and enables the driver without setting or disabling it
(the pin is driven low), and `none` for every other write and every other event. -/
def lineLevel (pin : Nat) : Event → Option Bool
  | Event.gpio_output_set s c en d =>
    if s.testBit pin && !c.testBit pin && en.testBit pin && !d.testBit pin then some true
    else if !s.testBit pin && c.testBit pin && en.testBit pin && !d.testBit pin then
      some false
    else none
  | _ => none

/-- The timed steps of a trace on the data line `PIN_GDO0`: every GPIO write that is
directly followed by a microsecond delay, as what the write does to the line (see
`lineLevel`) and the duration of the delay. -/
def lineTrain : List Event → List (Option Bool × Nat)
  | Event.gpio_output_set s c en d :: Event.delayMicroseconds us :: rest =>
    (lineLevel PIN_GDO0 (Event.gpio_output_set s c en d), us) :: lineTrain rest
  | _ :: rest => lineTrain rest
  | [] => []

/-- The line steps that render a bit string: per character, in order, driven high for
1300 us for `'1'` and 642 us otherwise, then driven low for 750 us. -/
def bitSteps (s : List Char) : List (Option Bool × Nat) :=
  s.flatMap (fun c => [(some true, if c = '1' then 1300 else 642), (some false, 750)])

/-- The line steps of one preamble/trailer burst. -/
def preambleSteps : List (Option Bool × Nat) :=
  [(some false, 4000), (some true, 4000), (some false, 4000), (some true, 4000),
    (some false, 4000)]

/-! ## Bit-field encoders: lemmas -/

theorem digit_eq (n k : Nat) :
    charOfInt (Int.land ((n : Int) >>> k) 1 + 48) = bitChar (Nat.testBit n k) := by
  have h1 : ((n : Int) >>> k) = ((n >>> k : Nat) : Int) := rfl
  have h2 : Int.land ((n >>> k : Nat) : Int) 1 = ((Nat.land (n >>> k) 1 : Nat) : Int) := rfl
  rw [h1, h2]
  have h3 : Nat.land (n >>> k) 1 = (Nat.testBit n k).toNat := by
    show (n >>> k) &&& 1 = _
    rw [Nat.and_one_is_mod, Nat.toNat_testBit, Nat.shiftRight_eq_div_pow]
  rw [h3]
  cases Nat.testBit n k <;> decide

theorem digit_eq_zero (n : Nat) :
    charOfInt (Int.land (n : Int) 1 + 48) = bitChar (Nat.testBit n 0) := digit_eq n 0

theorem bitChar_cases (b : Bool) : bitChar b = '0' ∨ bitChar b = '1' := by
  cases b <;> decide

theorem binValue_step_bitChar (b : Bool) (acc : Nat) :
    (2 * acc + if bitChar b = '1' then 1 else 0) = 2 * acc + b.toNat := by
  cases b <;> simp [bitChar]

theorem foldl_bitChar (b : Bool) (acc : Nat) (s : List Char) :
    List.foldl (fun acc c => 2 * acc + (if c = '1' then 1 else 0)) acc (bitChar b :: s) =
      List.foldl (fun acc c => 2 * acc + (if c = '1' then 1 else 0)) (2 * acc + b.toNat) s := by
  rw [List.foldl_cons, binValue_step_bitChar]

theorem binValue_bits9 (b8 b7 b6 b5 b4 b3 b2 b1 b0 : Bool) :
    binValue [bitChar b8, bitChar b7, bitChar b6, bitChar b5, bitChar b4, bitChar b3,
      bitChar b2, bitChar b1, bitChar b0] =
    256 * b8.toNat + 128 * b7.toNat + 64 * b6.toNat + 32 * b5.toNat + 16 * b4.toNat +
      8 * b3.toNat + 4 * b2.toNat + 2 * b1.toNat + b0.toNat := by
  unfold binValue
  rw [foldl_bitChar, foldl_bitChar, foldl_bitChar, foldl_bitChar, foldl_bitChar,
    foldl_bitChar, foldl_bitChar, foldl_bitChar, foldl_bitChar, List.foldl_nil]
  ring

theorem binValue_bits4 (b3 b2 b1 b0 : Bool) :
    binValue [bitChar b3, bitChar b2, bitChar b1, bitChar b0] =
      8 * b3.toNat + 4 * b2.toNat + 2 * b1.toNat + b0.toNat := by
  unfold binValue
  rw [foldl_bitChar, foldl_bitChar, foldl_bitChar, foldl_bitChar, List.foldl_nil]
  ring

theorem mod_pow_succ_testBit (x i : Nat) :
    x % 2 ^ (i + 1) = 2 ^ i * (x.testBit i).toNat + x % 2 ^ i := by
  rw [Nat.mod_pow_succ, Nat.toNat_testBit, Nat.add_comm]

/-- In range, the 9-bit encoder returns the nine bits of its input, most significant first. -/
theorem byteArrayFromInt9bit_nat (n : Nat) (h : n < 512) :
    byteArrayFromInt9bit (n : Int) =
      ([bitChar (n.testBit 8), bitChar (n.testBit 7), bitChar (n.testBit 6),
        bitChar (n.testBit 5), bitChar (n.testBit 4), bitChar (n.testBit 3),
        bitChar (n.testBit 2), bitChar (n.testBit 1), bitChar (n.testBit 0)], []) := by
  have hr : ¬ ((n : Int) < 0 ∨ (n : Int) > 511) := by omega
  simp only [byteArrayFromInt9bit, if_neg hr, byteArrayFromInt9bitLoop, digit_eq]
  rfl

/-- In range, the 4-bit encoder returns the four bits of its input, most significant first. -/
theorem byteArrayFromInt_nat (n : Nat) (h : n < 16) :
    byteArrayFromInt (n : Int) =
      ([bitChar (n.testBit 3), bitChar (n.testBit 2), bitChar (n.testBit 1),
        bitChar (n.testBit 0)], []) := by
  have hr : ¬ ((n : Int) < 0 ∨ (n : Int) > 15) := by omega
  simp only [byteArrayFromInt, if_neg hr, digit_eq, digit_eq_zero]
  rfl

theorem encodes9_nat (n : Nat) (h : n < 512) :
    Encodes 9 (n : Int) (byteArrayFromInt9bit (n : Int)).1 := by
  rw [byteArrayFromInt9bit_nat n h]
  refine ⟨rfl, ?_, ?_, ?_⟩
  · intro c hc
    simp only [List.mem_cons, List.mem_singleton, List.not_mem_nil, or_false] at hc
    rcases hc with h | h | h | h | h | h | h | h | h <;> rw [h] <;> exact bitChar_cases _
  · rw [binValue_bits9]
    have e9 : n % 512 = n := Nat.mod_eq_of_lt h
    have e0 : n % 1 = 0 := Nat.mod_one n
    have h0 : n % 2 = 1 * (n.testBit 0).toNat + n % 1 := mod_pow_succ_testBit n 0
    have h1 : n % 4 = 2 * (n.testBit 1).toNat + n % 2 := mod_pow_succ_testBit n 1
    have h2 : n % 8 = 4 * (n.testBit 2).toNat + n % 4 := mod_pow_succ_testBit n 2
    have h3 : n % 16 = 8 * (n.testBit 3).toNat + n % 8 := mod_pow_succ_testBit n 3
    have h4 : n % 32 = 16 * (n.testBit 4).toNat + n % 16 := mod_pow_succ_testBit n 4
    have h5 : n % 64 = 32 * (n.testBit 5).toNat + n % 32 := mod_pow_succ_testBit n 5
    have h6 : n % 128 = 64 * (n.testBit 6).toNat + n % 64 := mod_pow_succ_testBit n 6
    have h7 : n % 256 = 128 * (n.testBit 7).toNat + n % 128 := mod_pow_succ_testBit n 7
    have h8 : n % 512 = 256 * (n.testBit 8).toNat + n % 256 := mod_pow_succ_testBit n 8
    norm_cast
    linarith
  · intro k hk
    have hb : Int.testBit (n : Int) k = Nat.testBit n k := rfl
    rw [hb]
    interval_cases k <;> rfl

theorem encodes4_nat (n : Nat) (h : n < 16) :
    Encodes 4 (n : Int) (byteArrayFromInt (n : Int)).1 := by
  rw [byteArrayFromInt_nat n h]
  refine ⟨rfl, ?_, ?_, ?_⟩
  · intro c hc
    simp only [List.mem_cons, List.mem_singleton, List.not_mem_nil, or_false] at hc
    rcases hc with h | h | h | h <;> rw [h] <;> exact bitChar_cases _
  · rw [binValue_bits4]
    have e4 : n % 16 = n := Nat.mod_eq_of_lt h
    have e0 : n % 1 = 0 := Nat.mod_one n
    have h0 : n % 2 = 1 * (n.testBit 0).toNat + n % 1 := mod_pow_succ_testBit n 0
    have h1 : n % 4 = 2 * (n.testBit 1).toNat + n % 2 := mod_pow_succ_testBit n 1
    have h2 : n % 8 = 4 * (n.testBit 2).toNat + n % 4 := mod_pow_succ_testBit n 2
    have h3 : n % 16 = 8 * (n.testBit 3).toNat + n % 8 := mod_pow_succ_testBit n 3
    norm_cast
    linarith
  · intro k hk
    have hb : Int.testBit (n : Int) k = Nat.testBit n k := rfl
    rw [hb]
    interval_cases k <;> rfl

/-- C1: for every integer `v` with `0 ≤ v ≤ 15`, `byteArrayFromInt v` is a 4-character
string of binary digits whose big-endian value is `v`, and for every `v` with
`0 ≤ v ≤ 511`, `byteArrayFromInt9bit v` is such a string of 9 characters; bit `k` of `v`
is at position `width - 1 - k`. -/
theorem encoders_round_trip (v : Int) (h0 : 0 ≤ v) :
    (v ≤ 15 → Encodes 4 v (byteArrayFromInt v).1) ∧
      (v ≤ 511 → Encodes 9 v (byteArrayFromInt9bit v).1) := by
  obtain ⟨n, rfl⟩ := Int.eq_ofNat_of_zero_le h0
  exact ⟨fun h => encodes4_nat n (by omega), fun h => encodes9_nat n (by omega)⟩

theorem encoders_round_trip_witness :
    ((0 : Int) ≤ 11 ∧ (11 : Int) ≤ 15 ∧ Encodes 4 11 (byteArrayFromInt 11).1) ∧
      ((0 : Int) ≤ 348 ∧ (348 : Int) ≤ 511 ∧ Encodes 9 348 (byteArrayFromInt9bit 348).1) :=
  ⟨⟨by decide, by decide, (encoders_round_trip 11 (by decide)).1 (by decide)⟩,
   ⟨by decide, by decide, (encoders_round_trip 348 (by decide)).2 (by decide)⟩⟩


/-! ## Frame building: lemmas -/

theorem wrapInt32_of_range (x : Int) (h0 : -2147483648 ≤ x) (h1 : x < 2147483648) :
    wrapInt32 x = x := by
  unfold wrapInt32
  omega

theorem byteArrayFromInt_length (x : Int) : (byteArrayFromInt x).1.length = 4 := by
  unfold byteArrayFromInt
  split
  · rfl
  · simp only [List.length_set]
    rfl

theorem byteArrayFromInt9bit_length (x : Int) : (byteArrayFromInt9bit x).1.length = 9 := by
  unfold byteArrayFromInt9bit
  split
  · rfl
  · simp only [byteArrayFromInt9bitLoop, List.length_set]
    rfl

theorem sendMessagePayload_length (base idx : Int) (const17 action2 : List Char) :
    (sendMessagePayload base idx const17 action2).length =
      22 + const17.length + action2.length := by
  simp only [sendMessagePayload, List.length_append, byteArrayFromInt_length,
    byteArrayFromInt9bit_length, String.toList]
  simp only [List.length_cons, List.length_nil]
  omega

/-- The rolling-counter field of the payload, characters 30..38, for a 17-character
protocol id. -/
theorem sendMessagePayload_counter (base idx : Int) (const17 action2 : List Char)
    (h17 : const17.length = 17) :
    ((sendMessagePayload base idx const17 action2).drop 30).take 9 =
      (byteArrayFromInt9bit (wrapInt32 (base + idx))).1 := by
  have hpre : ("000".toList ++ (byteArrayFromInt idx).1 ++ const17 ++ "000000".toList).length
      = 30 := by
    simp only [List.length_append, byteArrayFromInt_length, h17]
    rfl
  have hsplit : sendMessagePayload base idx const17 action2 =
      ("000".toList ++ (byteArrayFromInt idx).1 ++ const17 ++ "000000".toList) ++
        ((byteArrayFromInt9bit (wrapInt32 (base + idx))).1 ++ action2) := by
    simp only [sendMessagePayload, List.append_assoc]
  rw [hsplit, List.drop_left' hpre, List.take_left' (byteArrayFromInt9bit_length _)]


theorem sendMessage_ok_iff (base idx : Int) (const17 action2 : List Char) (repeats st : Int) :
    (sendMessage base idx const17 action2 repeats st).1 = true ↔
      (sendMessagePayload base idx const17 action2).length = 41 ∧ st = RADIOLIB_ERR_NONE := by
  unfold sendMessage
  by_cases hl : (sendMessagePayload base idx const17 action2).length = 41
  · by_cases hs : st = RADIOLIB_ERR_NONE <;> simp [hl, hs]
  · simp [hl]

/-- C2: for deviceIndex in 0..15, base >= 0 with base + deviceIndex in 0..511, the
configured protocol-identity constant `CONST_17` and any 2-character action code, the
frame built by `sendMessage` has exactly 41 bits (so the call succeeds whenever direct
mode is entered) and its characters 30..38 decode as big-endian binary to
base + deviceIndex. -/
theorem frame_length_and_counter (base idx : Int) (action2 : List Char)
    (hidx0 : 0 ≤ idx) (hidx : idx ≤ 15) (hbase : 0 ≤ base) (hsum : base + idx ≤ 511)
    (hact : action2.length = 2) :
    (sendMessagePayload base idx CONST_17 action2).length = 41 ∧
      (binValue (((sendMessagePayload base idx CONST_17 action2).drop 30).take 9) : Int)
        = base + idx ∧
      ∀ repeats : Int,
        (sendMessage base idx CONST_17 action2 repeats RADIOLIB_ERR_NONE).1 = true := by
  have h17 : CONST_17.length = 17 := rfl
  have hlen : (sendMessagePayload base idx CONST_17 action2).length = 41 := by
    rw [sendMessagePayload_length, h17, hact]
  refine ⟨hlen, ?_, fun repeats => (sendMessage_ok_iff _ _ _ _ _ _).2 ⟨hlen, rfl⟩⟩
  rw [sendMessagePayload_counter base idx CONST_17 action2 h17,
    wrapInt32_of_range (base + idx) (by omega) (by omega)]
  obtain ⟨n, hn⟩ := Int.eq_ofNat_of_zero_le (show 0 ≤ base + idx by omega)
  rw [hn]
  exact (encodes9_nat n (by omega)).2.2.1

theorem frame_length_and_counter_witness :
    (sendMessagePayload 346 2 CONST_17 ACTION_UP).length = 41 ∧
      (binValue (((sendMessagePayload 346 2 CONST_17 ACTION_UP).drop 30).take 9) : Int)
        = 346 + 2 ∧
      ∀ repeats : Int,
        (sendMessage 346 2 CONST_17 ACTION_UP repeats RADIOLIB_ERR_NONE).1 = true :=
  frame_length_and_counter 346 2 ACTION_UP (by decide) (by decide) (by decide) (by decide) rfl


set_option maxRecDepth 100000 in
/-- C3 (counterexample): with base + deviceIndex = 514 (the call of route `/pause/40`) and
with base + deviceIndex = 515 for a valid device index, `sendMessage` returns true, asks
the radio to enter direct mode and emits 266 timed pulses. -/
theorem out_of_range_counter_is_sent :
    (511 < BASE_STOP + 40 ∧
      (sendMessage BASE_STOP 40 CONST_17 ACTION_STOP 3 RADIOLIB_ERR_NONE).1 = true ∧
      Event.transmitDirectAsync ∈
        (sendMessage BASE_STOP 40 CONST_17 ACTION_STOP 3 RADIOLIB_ERR_NONE).2 ∧
      (pulseTrain (sendMessage BASE_STOP 40 CONST_17 ACTION_STOP 3 RADIOLIB_ERR_NONE).2).length
        = 266) ∧
    ((511 : Int) < 500 + 15 ∧
      (sendMessage 500 15 CONST_17 ACTION_STOP 3 RADIOLIB_ERR_NONE).1 = true ∧
      Event.transmitDirectAsync ∈
        (sendMessage 500 15 CONST_17 ACTION_STOP 3 RADIOLIB_ERR_NONE).2 ∧
      (pulseTrain (sendMessage 500 15 CONST_17 ACTION_STOP 3 RADIOLIB_ERR_NONE).2).length
        = 266) := by
  decide


theorem byteArrayFromInt9bit_out (x : Int) (h : x < 0 ∨ 511 < x) :
    byteArrayFromInt9bit x =
      ("000000000".toList,
        [Event.serialPrintf "Input: %d is outside <0,511> range\n" x]) := by
  unfold byteArrayFromInt9bit
  rw [if_pos h]

theorem byteArrayFromInt_out (x : Int) (h : x < 0 ∨ 15 < x) :
    byteArrayFromInt x =
      ("0000".toList, [Event.serialPrintf "Input: %d is outside <0,15> range\n" x]) := by
  unfold byteArrayFromInt
  rw [if_pos h]

theorem byteArrayFromInt9bit_log_in (x : Int) (h0 : 0 ≤ x) (h1 : x ≤ 511) :
    (byteArrayFromInt9bit x).2 = [] := by
  have hr : ¬ (x < 0 ∨ x > 511) := by omega
  unfold byteArrayFromInt9bit
  rw [if_neg hr]

theorem byteArrayFromInt_log_in (x : Int) (h0 : 0 ≤ x) (h1 : x ≤ 15) :
    (byteArrayFromInt x).2 = [] := by
  have hr : ¬ (x < 0 ∨ x > 15) := by omega
  unfold byteArrayFromInt
  rw [if_neg hr]

/-- With a 41-character payload `sendMessage` always asks the radio to enter direct mode. -/
theorem transmitDirectAsync_mem (base idx : Int) (const17 action2 : List Char)
    (repeats st : Int) (hl : (sendMessagePayload base idx const17 action2).length = 41) :
    Event.transmitDirectAsync ∈ (sendMessage base idx const17 action2 repeats st).2 := by
  unfold sendMessage
  by_cases hs : st = RADIOLIB_ERR_NONE <;> simp [hl, hs]

/-- The serial output of the 9-bit encoder is part of the trace of `sendMessage`. -/
theorem log9_mem (base idx : Int) (const17 action2 : List Char) (repeats st : Int)
    (e : Event) (he : e ∈ (byteArrayFromInt9bit (wrapInt32 (base + idx))).2) :
    e ∈ (sendMessage base idx const17 action2 repeats st).2 := by
  unfold sendMessage
  by_cases hl : (sendMessagePayload base idx const17 action2).length = 41
  · by_cases hs : st = RADIOLIB_ERR_NONE <;> simp [hl, hs, he]
  · simp [hl, he]

/-- A successful call enters the critical section. -/
theorem noInterrupts_mem (base idx : Int) (const17 action2 : List Char) (repeats st : Int)
    (hok : (sendMessage base idx const17 action2 repeats st).1 = true) :
    Event.noInterrupts ∈ (sendMessage base idx const17 action2 repeats st).2 := by
  obtain ⟨hl, hs⟩ := (sendMessage_ok_iff _ _ _ _ _ _).1 hok
  unfold sendMessage
  simp [hl, hs]

/-- C3 (amended): when base + deviceIndex fits an `int` and lies outside [0,511], the 9-bit
encoder reports the value on the serial port and returns the zero-filled string, so the
rolling-counter field of the frame is `000000000` and the build does not fail: with a
17-character protocol id and a 2-character action code the frame has 41 bits,
`sendMessage` asks the radio to enter direct mode, and it returns true, having entered
the critical section, exactly when mode entry succeeds. -/
theorem out_of_range_counter_zero_filled (base idx : Int) (const17 action2 : List Char)
    (repeats st : Int)
    (hfit : -2147483648 ≤ base + idx ∧ base + idx < 2147483648)
    (hout : base + idx < 0 ∨ 511 < base + idx)
    (h17 : const17.length = 17) (h2 : action2.length = 2) :
    ((sendMessagePayload base idx const17 action2).drop 30).take 9 = "000000000".toList ∧
      (sendMessagePayload base idx const17 action2).length = 41 ∧
      Event.serialPrintf "Input: %d is outside <0,511> range\n" (base + idx) ∈
        (sendMessage base idx const17 action2 repeats st).2 ∧
      Event.transmitDirectAsync ∈ (sendMessage base idx const17 action2 repeats st).2 ∧
      ((sendMessage base idx const17 action2 repeats st).1 = true ↔
        st = RADIOLIB_ERR_NONE) ∧
      (st = RADIOLIB_ERR_NONE →
        Event.noInterrupts ∈ (sendMessage base idx const17 action2 repeats st).2) := by
  have hw : wrapInt32 (base + idx) = base + idx := wrapInt32_of_range _ hfit.1 hfit.2
  have hl : (sendMessagePayload base idx const17 action2).length = 41 := by
    rw [sendMessagePayload_length, h17, h2]
  have hiff := sendMessage_ok_iff base idx const17 action2 repeats st
  refine ⟨?_, hl, ?_, transmitDirectAsync_mem _ _ _ _ _ _ hl, ?_, ?_⟩
  · rw [sendMessagePayload_counter base idx const17 action2 h17, hw,
      byteArrayFromInt9bit_out _ hout]
  · apply log9_mem
    rw [hw, byteArrayFromInt9bit_out _ hout]
    exact List.mem_singleton.2 rfl
  · rw [hiff]
    exact ⟨fun h => h.2, fun h => ⟨hl, h⟩⟩
  · intro hs
    exact noInterrupts_mem _ _ _ _ _ _ (hiff.2 ⟨hl, hs⟩)

theorem out_of_range_counter_zero_filled_witness :
    ((sendMessagePayload BASE_STOP 40 CONST_17 ACTION_STOP).drop 30).take 9
        = "000000000".toList ∧
      (sendMessagePayload BASE_STOP 40 CONST_17 ACTION_STOP).length = 41 ∧
      Event.serialPrintf "Input: %d is outside <0,511> range\n" (BASE_STOP + 40) ∈
        (sendMessage BASE_STOP 40 CONST_17 ACTION_STOP 3 RADIOLIB_ERR_NONE).2 ∧
      Event.transmitDirectAsync ∈
        (sendMessage BASE_STOP 40 CONST_17 ACTION_STOP 3 RADIOLIB_ERR_NONE).2 ∧
      ((sendMessage BASE_STOP 40 CONST_17 ACTION_STOP 3 RADIOLIB_ERR_NONE).1 = true ↔
        RADIOLIB_ERR_NONE = RADIOLIB_ERR_NONE) ∧
      (RADIOLIB_ERR_NONE = RADIOLIB_ERR_NONE →
        Event.noInterrupts ∈
          (sendMessage BASE_STOP 40 CONST_17 ACTION_STOP 3 RADIOLIB_ERR_NONE).2) :=
  out_of_range_counter_zero_filled BASE_STOP 40 CONST_17 ACTION_STOP 3 RADIOLIB_ERR_NONE
    (by decide) (by decide) rfl rfl

/-- C4 (counterexample): the out-of-range inputs 16 and -1 of the 4-bit encoder and 512 and
-1 of the 9-bit encoder return exactly what the in-range input 0 returns. -/
theorem fallback_equals_encoding_of_zero :
    (byteArrayFromInt 16).1 = (byteArrayFromInt 0).1 ∧
      (byteArrayFromInt (-1)).1 = (byteArrayFromInt 0).1 ∧
      (byteArrayFromInt9bit 512).1 = (byteArrayFromInt9bit 0).1 ∧
      (byteArrayFromInt9bit (-1)).1 = (byteArrayFromInt9bit 0).1 := by
  decide

/-- C4 (amended): for every integer `v` outside [0, 2^w) the encoder returns the zero-filled
string of width `w`, which is the value it returns for the in-range input 0, and writes
one diagnostic line naming `v` to the serial port; for in-range inputs it writes nothing.
The serial line is the only signal: the returned string carries none. -/
theorem out_of_range_fallback (v : Int) :
    ((v < 0 ∨ 15 < v) →
      byteArrayFromInt v =
        ("0000".toList, [Event.serialPrintf "Input: %d is outside <0,15> range\n" v]) ∧
      (byteArrayFromInt v).1 = (byteArrayFromInt 0).1) ∧
    ((v < 0 ∨ 511 < v) →
      byteArrayFromInt9bit v =
        ("000000000".toList,
          [Event.serialPrintf "Input: %d is outside <0,511> range\n" v]) ∧
      (byteArrayFromInt9bit v).1 = (byteArrayFromInt9bit 0).1) ∧
    ((0 ≤ v ∧ v ≤ 15) → (byteArrayFromInt v).2 = []) ∧
    ((0 ≤ v ∧ v ≤ 511) → (byteArrayFromInt9bit v).2 = []) := by
  refine ⟨fun h => ?_, fun h => ?_, fun h => byteArrayFromInt_log_in v h.1 h.2,
    fun h => byteArrayFromInt9bit_log_in v h.1 h.2⟩
  · rw [byteArrayFromInt_out v h]
    exact ⟨rfl, rfl⟩
  · rw [byteArrayFromInt9bit_out v h]
    exact ⟨rfl, rfl⟩

theorem out_of_range_fallback_witness :
    (byteArrayFromInt 16 =
        ("0000".toList, [Event.serialPrintf "Input: %d is outside <0,15> range\n" 16]) ∧
      (byteArrayFromInt 16).1 = (byteArrayFromInt 0).1) ∧
    (byteArrayFromInt9bit 512 =
        ("000000000".toList,
          [Event.serialPrintf "Input: %d is outside <0,511> range\n" 512]) ∧
      (byteArrayFromInt9bit 512).1 = (byteArrayFromInt9bit 0).1) ∧
    (byteArrayFromInt 7).2 = [] ∧ (byteArrayFromInt9bit 300).2 = [] :=
  ⟨(out_of_range_fallback 16).1 (by decide), (out_of_range_fallback 512).2.1 (by decide),
    (out_of_range_fallback 7).2.2.1 (by decide), (out_of_range_fallback 300).2.2.2 (by decide)⟩

/-- C5: for base + deviceIndex in 0..511 (and every deviceIndex) the payload built by
`sendMessage` is `"000" ++ byteArrayFromInt(deviceIndex) ++ protocolId ++ "000000" ++
byteArrayFromInt9bit(base + deviceIndex) ++ actionCode`; for base 346, deviceIndex 2,
protocolId `00001001110011111` and actionCode `00` it is
`000 0010 00001001110011111 000000 101011100 00`, of length 41. -/
theorem frame_layout (base idx : Int) (protocolId actionCode : List Char)
    (hsum : 0 ≤ base + idx ∧ base + idx ≤ 511) :
    sendMessagePayload base idx protocolId actionCode =
        "000".toList ++ (byteArrayFromInt idx).1 ++ protocolId ++ "000000".toList ++
          (byteArrayFromInt9bit (base + idx)).1 ++ actionCode ∧
      sendMessagePayload 346 2 "00001001110011111".toList "00".toList =
        "000".toList ++ "0010".toList ++ "00001001110011111".toList ++ "000000".toList ++
          "101011100".toList ++ "00".toList ∧
      (sendMessagePayload 346 2 "00001001110011111".toList "00".toList).length = 41 := by
  refine ⟨?_, by decide, by decide⟩
  unfold sendMessagePayload
  rw [wrapInt32_of_range (base + idx) (by omega) (by omega)]

theorem frame_layout_witness :
    sendMessagePayload 346 2 CONST_17 ACTION_UP =
        "000".toList ++ (byteArrayFromInt 2).1 ++ CONST_17 ++ "000000".toList ++
          (byteArrayFromInt9bit (346 + 2)).1 ++ ACTION_UP ∧
      sendMessagePayload 346 2 "00001001110011111".toList "00".toList =
        "000".toList ++ "0010".toList ++ "00001001110011111".toList ++ "000000".toList ++
          "101011100".toList ++ "00".toList ∧
      (sendMessagePayload 346 2 "00001001110011111".toList "00".toList).length = 41 :=
  frame_layout 346 2 CONST_17 ACTION_UP (by decide)


/-! ## Transmission: lemmas -/

theorem byteArrayFromInt_log_serial (x : Int) :
    ∀ e ∈ (byteArrayFromInt x).2, isSerial e = true := by
  unfold byteArrayFromInt
  split
  · intro e he
    rw [List.mem_singleton.1 he]
    rfl
  · intro e he
    cases he

theorem byteArrayFromInt9bit_log_serial (x : Int) :
    ∀ e ∈ (byteArrayFromInt9bit x).2, isSerial e = true := by
  unfold byteArrayFromInt9bit
  split
  · intro e he
    rw [List.mem_singleton.1 he]
    rfl
  · intro e he
    cases he

/-- Serial output is neither a GPIO write, nor a pulse delay, nor a mode or interrupt
switch. -/
theorem serial_is_quiet (e : Event) (h : isSerial e = true) :
    isGpioWrite e = false ∧ isPulseDelay e = false ∧ e ≠ Event.noInterrupts ∧
      e ≠ Event.transmitDirectAsync ∧ e ≠ Event.interrupts := by
  cases e <;> simp_all [isSerial, isGpioWrite, isPulseDelay]

theorem pulseTrain_nil_of_no_write (l : List Event)
    (h : ∀ e ∈ l, isGpioWrite e = false) : pulseTrain l = [] := by
  induction l with
  | nil => rfl
  | cons e rest ih =>
    have hrest : pulseTrain rest = [] := ih (fun x hx => h x (List.mem_cons_of_mem _ hx))
    have he : isGpioWrite e = false := h e (List.mem_cons_self _ _)
    cases e <;> simp_all [pulseTrain, isGpioWrite]

/-- The trace of a failed call: the encoders' serial output followed by the diagnostic of
the failing check, with the mode request in between when the length check passed. -/
theorem sendMessage_fail_trace (base idx : Int) (const17 action2 : List Char)
    (repeats st : Int)
    (hfail : (sendMessage base idx const17 action2 repeats st).1 = false) :
    ((sendMessagePayload base idx const17 action2).length ≠ 41 ∧
      (sendMessage base idx const17 action2 repeats st).2 =
        (byteArrayFromInt9bit (wrapInt32 (base + idx))).2 ++ (byteArrayFromInt idx).2 ++
          [Event.serialPrintf "Bad length: %d bits\n"
            (sendMessagePayload base idx const17 action2).length]) ∨
    ((sendMessagePayload base idx const17 action2).length = 41 ∧ st ≠ RADIOLIB_ERR_NONE ∧
      (sendMessage base idx const17 action2 repeats st).2 =
        (byteArrayFromInt9bit (wrapInt32 (base + idx))).2 ++ (byteArrayFromInt idx).2 ++
          [Event.transmitDirectAsync,
            Event.serialPrintf "transmitDirectAsync failed: %d\n" st]) := by
  by_cases hl : (sendMessagePayload base idx const17 action2).length = 41
  · by_cases hs : st = RADIOLIB_ERR_NONE
    · have hok := (sendMessage_ok_iff base idx const17 action2 repeats st).2 ⟨hl, hs⟩
      rw [hok] at hfail
      cases hfail
    · right
      refine ⟨hl, hs, ?_⟩
      unfold sendMessage
      simp [hl, hs]
  · left
    refine ⟨hl, ?_⟩
    unfold sendMessage
    simp [hl]

/-- C6: every call of `sendMessage` that returns false failed the length check or the
direct-mode request, and its trace contains no GPIO write, no pulse delay and no
`noInterrupts` (so no pulse train at all); when the length check fails the trace does not
contain the direct-mode request either. -/
theorem failure_is_silent (base idx : Int) (const17 action2 : List Char) (repeats st : Int)
    (hfail : (sendMessage base idx const17 action2 repeats st).1 = false) :
    ((sendMessagePayload base idx const17 action2).length ≠ 41 ∨ st ≠ RADIOLIB_ERR_NONE) ∧
      (∀ e ∈ (sendMessage base idx const17 action2 repeats st).2,
        isGpioWrite e = false ∧ isPulseDelay e = false ∧ e ≠ Event.noInterrupts) ∧
      pulseTrain (sendMessage base idx const17 action2 repeats st).2 = [] ∧
      ((sendMessagePayload base idx const17 action2).length ≠ 41 →
        Event.transmitDirectAsync ∉ (sendMessage base idx const17 action2 repeats st).2) := by
  have hq9 := fun e he =>
    serial_is_quiet e (byteArrayFromInt9bit_log_serial (wrapInt32 (base + idx)) e he)
  have hq4 := fun e he => serial_is_quiet e (byteArrayFromInt_log_serial idx e he)
  have hquiet : ∀ e ∈ (sendMessage base idx const17 action2 repeats st).2,
      isGpioWrite e = false ∧ isPulseDelay e = false ∧ e ≠ Event.noInterrupts := by
    intro e he
    rcases sendMessage_fail_trace base idx const17 action2 repeats st hfail with
      ⟨_, ht⟩ | ⟨_, _, ht⟩
    · rw [ht] at he
      simp only [List.mem_append, List.mem_singleton] at he
      rcases he with (h | h) | h
      · exact ⟨(hq9 e h).1, (hq9 e h).2.1, (hq9 e h).2.2.1⟩
      · exact ⟨(hq4 e h).1, (hq4 e h).2.1, (hq4 e h).2.2.1⟩
      · rw [h]
        exact ⟨rfl, rfl, by simp⟩
    · rw [ht] at he
      simp only [List.mem_append, List.mem_cons, List.mem_singleton, List.not_mem_nil,
        or_false] at he
      rcases he with (h | h) | h | h
      · exact ⟨(hq9 e h).1, (hq9 e h).2.1, (hq9 e h).2.2.1⟩
      · exact ⟨(hq4 e h).1, (hq4 e h).2.1, (hq4 e h).2.2.1⟩
      · rw [h]
        exact ⟨rfl, rfl, by simp⟩
      · rw [h]
        exact ⟨rfl, rfl, by simp⟩
  refine ⟨?_, hquiet, pulseTrain_nil_of_no_write _ (fun e he => (hquiet e he).1), ?_⟩
  · rcases sendMessage_fail_trace base idx const17 action2 repeats st hfail with
      ⟨hl, _⟩ | ⟨_, hs, _⟩
    · exact Or.inl hl
    · exact Or.inr hs
  · intro hl hmem
    rcases sendMessage_fail_trace base idx const17 action2 repeats st hfail with
      ⟨_, ht⟩ | ⟨hl41, _, _⟩
    · rw [ht] at hmem
      simp only [List.mem_append, List.mem_singleton] at hmem
      rcases hmem with (h | h) | h
      · exact (hq9 _ h).2.2.2.1 rfl
      · exact (hq4 _ h).2.2.2.1 rfl
      · cases h
    · exact hl hl41

theorem failure_is_silent_witness :
    (sendMessage BASE_UP 2 CONST_17 ACTION_UP 3 (-2)).1 = false ∧
    ((sendMessagePayload BASE_UP 2 CONST_17 ACTION_UP).length ≠ 41 ∨
        (-2 : Int) ≠ RADIOLIB_ERR_NONE) ∧
      (∀ e ∈ (sendMessage BASE_UP 2 CONST_17 ACTION_UP 3 (-2)).2,
        isGpioWrite e = false ∧ isPulseDelay e = false ∧ e ≠ Event.noInterrupts) ∧
      pulseTrain (sendMessage BASE_UP 2 CONST_17 ACTION_UP 3 (-2)).2 = [] ∧
      ((sendMessagePayload BASE_UP 2 CONST_17 ACTION_UP).length ≠ 41 →
        Event.transmitDirectAsync ∉ (sendMessage BASE_UP 2 CONST_17 ACTION_UP 3 (-2)).2) ∧
    (sendMessage BASE_UP 2 "0".toList ACTION_UP 3 RADIOLIB_ERR_NONE).1 = false ∧
    Event.transmitDirectAsync ∉
      (sendMessage BASE_UP 2 "0".toList ACTION_UP 3 RADIOLIB_ERR_NONE).2 :=
  have h := failure_is_silent BASE_UP 2 CONST_17 ACTION_UP 3 (-2) (by decide)
  ⟨by decide, h.1, h.2.1, h.2.2.1, h.2.2.2, by decide,
    (failure_is_silent BASE_UP 2 "0".toList ACTION_UP 3 RADIOLIB_ERR_NONE
      (by decide)).2.2.2 (by decide)⟩


/-! ## Waveform: lemmas -/

theorem pulseTrain_txHigh (us : Nat) (rest : List Event) :
    pulseTrain (txHigh us ++ rest) = (true, us) :: pulseTrain rest := by
  simp [txHigh, gpioHigh, pulseTrain, PIN_GDO0]

theorem pulseTrain_txLow (us : Nat) (rest : List Event) :
    pulseTrain (txLow us ++ rest) = (false, us) :: pulseTrain rest := by
  simp [txLow, gpioLow, pulseTrain, PIN_GDO0]

theorem pulseTrain_preamble (rest : List Event) :
    pulseTrain (sendPreambleAndTrailer ++ rest) = preamblePulses ++ pulseTrain rest := by
  simp only [sendPreambleAndTrailer, List.append_assoc, pulseTrain_txHigh, pulseTrain_txLow]
  rfl

theorem pulseTrain_sendBitString (s : List Char) (rest : List Event) :
    pulseTrain (sendBitString s ++ rest) = bitPulses s ++ pulseTrain rest := by
  induction s with
  | nil => rfl
  | cons c bits ih =>
    simp only [sendBitString, List.append_assoc, pulseTrain_txHigh, pulseTrain_txLow, ih]
    by_cases hc : c = '1' <;> simp [bitPulses, hc, BIT1_HIGH_US, BIT0_HIGH_US, GAP_LOW_US]

theorem pulseTrain_skip (l rest : List Event) (h : ∀ e ∈ l, isGpioWrite e = false) :
    pulseTrain (l ++ rest) = pulseTrain rest := by
  induction l with
  | nil => rfl
  | cons e l ih =>
    have he : isGpioWrite e = false := h e (List.mem_cons_self _ _)
    have hl := ih (fun x hx => h x (List.mem_cons_of_mem _ hx))
    cases e <;> simp_all [pulseTrain, isGpioWrite]


theorem lineTrain_txHigh (us : Nat) (rest : List Event) :
    lineTrain (txHigh us ++ rest) = (some true, us) :: lineTrain rest := by
  have hl : lineLevel PIN_GDO0 (Event.gpio_output_set (1 <<< PIN_GDO0) 0 (1 <<< PIN_GDO0) 0)
      = some true := by decide
  simp only [txHigh, gpioHigh, List.cons_append, List.nil_append, lineTrain, hl]
  rfl

theorem lineTrain_txLow (us : Nat) (rest : List Event) :
    lineTrain (txLow us ++ rest) = (some false, us) :: lineTrain rest := by
  have hl : lineLevel PIN_GDO0 (Event.gpio_output_set 0 (1 <<< PIN_GDO0) (1 <<< PIN_GDO0) 0)
      = some false := by decide
  simp only [txLow, gpioLow, List.cons_append, List.nil_append, lineTrain, hl]
  rfl

theorem lineTrain_preamble (rest : List Event) :
    lineTrain (sendPreambleAndTrailer ++ rest) = preambleSteps ++ lineTrain rest := by
  simp only [sendPreambleAndTrailer, List.append_assoc, lineTrain_txHigh, lineTrain_txLow]
  rfl

theorem lineTrain_sendBitString (s : List Char) (rest : List Event) :
    lineTrain (sendBitString s ++ rest) = bitSteps s ++ lineTrain rest := by
  induction s with
  | nil => rfl
  | cons c bits ih =>
    simp only [sendBitString, List.append_assoc, lineTrain_txHigh, lineTrain_txLow, ih]
    by_cases hc : c = '1' <;> simp [bitSteps, hc, BIT1_HIGH_US, BIT0_HIGH_US, GAP_LOW_US]

theorem lineTrain_skip (l rest : List Event) (h : ∀ e ∈ l, isGpioWrite e = false) :
    lineTrain (l ++ rest) = lineTrain rest := by
  induction l with
  | nil => rfl
  | cons e l ih =>
    have he : isGpioWrite e = false := h e (List.mem_cons_self _ _)
    have hl := ih (fun x hx => h x (List.mem_cons_of_mem _ hx))
    cases e <;> simp_all [lineTrain, isGpioWrite]

theorem bitSteps_cons (c : Char) (s : List Char) :
    bitSteps (c :: s) =
      (some true, if c = '1' then 1300 else 642) :: (some false, 750) :: bitSteps s := by
  simp [bitSteps]

theorem bitSteps_length (s : List Char) : (bitSteps s).length = 2 * s.length := by
  induction s with
  | nil => rfl
  | cons c s ih =>
    rw [bitSteps_cons, List.length_cons, List.length_cons, List.length_cons, ih]
    omega

theorem bitSteps_index (s : List Char) :
    ∀ (i : Nat) (h : i < s.length),
      (bitSteps s)[2 * i]? = some (some true, if s[i] = '1' then 1300 else 642) ∧
        (bitSteps s)[2 * i + 1]? = some (some false, 750) := by
  induction s with
  | nil => intro i h; cases h
  | cons c s ih =>
    intro i h
    rw [bitSteps_cons]
    cases i with
    | zero => exact ⟨by simp, by simp⟩
    | succ j =>
      have hj : j < s.length := Nat.lt_of_succ_lt_succ h
      have e1 : 2 * (j + 1) = 2 * j + 1 + 1 := by omega
      rw [e1]
      simp only [List.getElem?_cons_succ, List.getElem_cons_succ]
      exact ih j hj

/-- The four events of one iteration of the loop of `sendBitString`. -/
theorem sendBitString_cons (c : Char) (s : List Char) :
    sendBitString (c :: s) =
      Event.gpio_output_set 16 0 16 0 ::
        Event.delayMicroseconds (if c = '1' then 1300 else 642) ::
        Event.gpio_output_set 0 16 16 0 ::
        Event.delayMicroseconds 750 :: sendBitString s := by
  by_cases hc : c = '1' <;>
    simp [sendBitString, txHigh, txLow, gpioHigh, gpioLow, PIN_GDO0, hc, BIT1_HIGH_US,
      BIT0_HIGH_US, GAP_LOW_US]

theorem sendBitString_index (s : List Char) :
    ∀ (i : Nat) (h : i < s.length),
      (sendBitString s)[4 * i]? = some (Event.gpio_output_set 16 0 16 0) ∧
        (sendBitString s)[4 * i + 1]? =
          some (Event.delayMicroseconds (if s[i] = '1' then 1300 else 642)) ∧
        (sendBitString s)[4 * i + 2]? = some (Event.gpio_output_set 0 16 16 0) ∧
        (sendBitString s)[4 * i + 3]? = some (Event.delayMicroseconds 750) := by
  induction s with
  | nil => intro i h; cases h
  | cons c s ih =>
    intro i h
    rw [sendBitString_cons]
    cases i with
    | zero => exact ⟨by simp, by simp, by simp, by simp⟩
    | succ j =>
      have hj : j < s.length := Nat.lt_of_succ_lt_succ h
      have e1 : 4 * (j + 1) = 4 * j + 1 + 1 + 1 + 1 := by omega
      have e2 : 4 * j + 1 + 1 + 1 + 1 + 2 = 4 * j + 2 + 1 + 1 + 1 + 1 := by omega
      have e3 : 4 * j + 1 + 1 + 1 + 1 + 3 = 4 * j + 3 + 1 + 1 + 1 + 1 := by omega
      rw [e1, e2, e3]
      simp only [List.getElem?_cons_succ, List.getElem_cons_succ]
      exact ih j hj

theorem bitPulses_cons (c : Char) (s : List Char) :
    bitPulses (c :: s) =
      (true, if c = '1' then 1300 else 642) :: (false, 750) :: bitPulses s := by
  simp [bitPulses]

theorem bitPulses_length (s : List Char) : (bitPulses s).length = 2 * s.length := by
  induction s with
  | nil => rfl
  | cons c s ih =>
    rw [bitPulses_cons, List.length_cons, List.length_cons, List.length_cons, ih]
    omega

theorem bitPulses_index (s : List Char) :
    ∀ (i : Nat) (h : i < s.length),
      (bitPulses s)[2 * i]? = some (true, if s[i] = '1' then 1300 else 642) ∧
        (bitPulses s)[2 * i + 1]? = some (false, 750) := by
  induction s with
  | nil => intro i h; cases h
  | cons c s ih =>
    intro i h
    rw [bitPulses_cons]
    cases i with
    | zero => exact ⟨by simp, by simp⟩
    | succ j =>
      have hj : j < s.length := Nat.lt_of_succ_lt_succ h
      have e1 : 2 * (j + 1) = 2 * j + 1 + 1 := by omega
      rw [e1]
      simp only [List.getElem?_cons_succ, List.getElem_cons_succ]
      exact ih j hj

theorem sendBitString_length (s : List Char) : (sendBitString s).length = 4 * s.length := by
  induction s with
  | nil => rfl
  | cons c s ih =>
    simp only [sendBitString, txHigh, txLow, gpioHigh, gpioLow, List.length_append,
      List.length_cons, List.length_nil, ih]
    omega

/-- C9: `sendBitString s` performs exactly `2 * |s|` timed steps, each one GPIO write
followed by one delay; for each `i < |s|` step `2i` is the register write
`gpio_output_set(1 << 4, 0, 1 << 4, 0)`, which sets and enables the output of the data
pin (drives the line high), followed by a delay of 1300 us if `s[i]` is `'1'` and of
642 us otherwise, and step `2i + 1` is the write `gpio_output_set(0, 1 << 4, 1 << 4, 0)`,
which clears the output of the data pin and keeps it enabled (drives the line low),
followed by a delay of 750 us. -/
theorem bit_rendering (s : List Char) (i : Nat) (h : i < s.length) :
    (sendBitString s).length = 4 * s.length ∧
      (pulseTrain (sendBitString s)).length = 2 * s.length ∧
      (pulseTrain (sendBitString s))[2 * i]? =
        some (true, if s[i] = '1' then 1300 else 642) ∧
      (pulseTrain (sendBitString s))[2 * i + 1]? = some (false, 750) ∧
      (lineTrain (sendBitString s)).length = 2 * s.length ∧
      (lineTrain (sendBitString s))[2 * i]? =
        some (some true, if s[i] = '1' then 1300 else 642) ∧
      (lineTrain (sendBitString s))[2 * i + 1]? = some (some false, 750) ∧
      (sendBitString s)[4 * i]? = some (Event.gpio_output_set 16 0 16 0) ∧
      (sendBitString s)[4 * i + 1]? =
        some (Event.delayMicroseconds (if s[i] = '1' then 1300 else 642)) ∧
      (sendBitString s)[4 * i + 2]? = some (Event.gpio_output_set 0 16 16 0) ∧
      (sendBitString s)[4 * i + 3]? = some (Event.delayMicroseconds 750) := by
  have hp : pulseTrain (sendBitString s) = bitPulses s := by
    have := pulseTrain_sendBitString s []
    simpa [pulseTrain] using this
  have hq : lineTrain (sendBitString s) = bitSteps s := by
    have := lineTrain_sendBitString s []
    simpa [lineTrain] using this
  rw [hp, hq]
  exact ⟨sendBitString_length s, bitPulses_length s, (bitPulses_index s i h).1,
    (bitPulses_index s i h).2, bitSteps_length s, (bitSteps_index s i h).1,
    (bitSteps_index s i h).2, sendBitString_index s i h⟩

theorem bit_rendering_witness :
    (sendBitString "0110".toList).length = 4 * 4 ∧
      (pulseTrain (sendBitString "0110".toList)).length = 2 * 4 ∧
      (pulseTrain (sendBitString "0110".toList))[2 * 2]? = some (true, 1300) ∧
      (pulseTrain (sendBitString "0110".toList))[2 * 2 + 1]? = some (false, 750) ∧
      (lineTrain (sendBitString "0110".toList)).length = 2 * 4 ∧
      (lineTrain (sendBitString "0110".toList))[2 * 2]? = some (some true, 1300) ∧
      (lineTrain (sendBitString "0110".toList))[2 * 2 + 1]? = some (some false, 750) ∧
      (sendBitString "0110".toList)[4 * 2]? = some (Event.gpio_output_set 16 0 16 0) ∧
      (sendBitString "0110".toList)[4 * 2 + 1]? = some (Event.delayMicroseconds 1300) ∧
      (sendBitString "0110".toList)[4 * 2 + 2]? = some (Event.gpio_output_set 0 16 16 0) ∧
      (sendBitString "0110".toList)[4 * 2 + 3]? = some (Event.delayMicroseconds 750) :=
  bit_rendering "0110".toList 2 (by decide)


theorem dropWhile_append_cons {α : Type} (p : α → Bool) (l₁ : List α) (a : α) (l₂ : List α)
    (h₁ : ∀ x ∈ l₁, p x = true) (ha : p a = false) :
    (l₁ ++ a :: l₂).dropWhile p = a :: l₂ := by
  induction l₁ with
  | nil => simp [List.dropWhile, ha]
  | cons x l ih =>
    have hx : p x = true := h₁ x (List.mem_cons_self _ _)
    rw [List.cons_append, List.dropWhile_cons, hx, if_pos rfl,
      ih (fun y hy => h₁ y (List.mem_cons_of_mem _ hy))]

theorem takeWhile_append_cons {α : Type} (p : α → Bool) (l₁ : List α) (a : α) (l₂ : List α)
    (h₁ : ∀ x ∈ l₁, p x = true) (ha : p a = false) :
    (l₁ ++ a :: l₂).takeWhile p = l₁ := by
  induction l₁ with
  | nil => simp [List.takeWhile, ha]
  | cons x l ih =>
    have hx : p x = true := h₁ x (List.mem_cons_self _ _)
    rw [List.cons_append, List.takeWhile_cons, hx, if_pos rfl,
      ih (fun y hy => h₁ y (List.mem_cons_of_mem _ hy))]

theorem txHigh_pulse (us : Nat) : ∀ e ∈ txHigh us, isPulseEvent e = true := by
  intro e he
  simp only [txHigh, gpioHigh, List.cons_append, List.nil_append, List.mem_cons,
    List.mem_singleton, List.not_mem_nil, or_false] at he
  rcases he with h | h <;> rw [h] <;> rfl

theorem txLow_pulse (us : Nat) : ∀ e ∈ txLow us, isPulseEvent e = true := by
  intro e he
  simp only [txLow, gpioLow, List.cons_append, List.nil_append, List.mem_cons,
    List.mem_singleton, List.not_mem_nil, or_false] at he
  rcases he with h | h <;> rw [h] <;> rfl

theorem sendPreambleAndTrailer_pulse :
    ∀ e ∈ sendPreambleAndTrailer, isPulseEvent e = true := by
  intro e he
  simp only [sendPreambleAndTrailer, List.mem_append] at he
  rcases he with (((h | h) | h) | h) | h
  · exact txLow_pulse _ e h
  · exact txHigh_pulse _ e h
  · exact txLow_pulse _ e h
  · exact txHigh_pulse _ e h
  · exact txLow_pulse _ e h

theorem sendBitString_pulse (s : List Char) :
    ∀ e ∈ sendBitString s, isPulseEvent e = true := by
  induction s with
  | nil => intro e he; cases he
  | cons c s ih =>
    intro e he
    simp only [sendBitString, List.mem_append] at he
    rcases he with (h | h) | h
    · exact txHigh_pulse _ e h
    · exact txLow_pulse _ e h
    · exact ih e h

theorem sendMessageLoop_pulse (p : List Char) (n : Nat) :
    ∀ e ∈ sendMessageLoop p n, isPulseEvent e = true := by
  induction n with
  | zero => intro e he; cases he
  | succ n ih =>
    intro e he
    simp only [sendMessageLoop, List.mem_append] at he
    rcases he with (h | h) | h
    · exact sendPreambleAndTrailer_pulse e h
    · exact sendBitString_pulse p e h
    · exact ih e h

theorem sendMessageLoop_eq_replicate (p : List Char) (n : Nat) :
    sendMessageLoop p n =
      (List.replicate n (sendPreambleAndTrailer ++ sendBitString p)).flatten := by
  induction n with
  | zero => rfl
  | succ n ih =>
    rw [sendMessageLoop, ih, List.replicate_succ, List.flatten_cons]

theorem pulseTrain_sendMessageLoop (p : List Char) (n : Nat) (rest : List Event) :
    pulseTrain (sendMessageLoop p n ++ rest) =
      (List.replicate n (preamblePulses ++ bitPulses p)).flatten ++ pulseTrain rest := by
  induction n with
  | zero => rfl
  | succ n ih =>
    rw [sendMessageLoop, List.append_assoc, List.append_assoc, pulseTrain_preamble,
      pulseTrain_sendBitString, ih, List.replicate_succ, List.flatten_cons]
    simp only [List.append_assoc]

/-- The trace of a successful call. -/
theorem sendMessage_ok_trace (base idx : Int) (const17 action2 : List Char)
    (repeats st : Int)
    (hok : (sendMessage base idx const17 action2 repeats st).1 = true) :
    (sendMessage base idx const17 action2 repeats st).2 =
      ((byteArrayFromInt9bit (wrapInt32 (base + idx))).2 ++ (byteArrayFromInt idx).2 ++
          [Event.transmitDirectAsync]) ++
        Event.noInterrupts ::
          ((sendMessageLoop (sendMessagePayload base idx const17 action2) repeats.toNat ++
              sendPreambleAndTrailer) ++
            Event.interrupts :: [Event.packetMode, Event.delay 1]) := by
  obtain ⟨hl, hs⟩ := (sendMessage_ok_iff _ _ _ _ _ _).1 hok
  unfold sendMessage
  simp [hl, hs]

/-- The critical section of a successful call holds the loop and the final burst. -/
theorem criticalSection_ok (base idx : Int) (const17 action2 : List Char)
    (repeats st : Int)
    (hok : (sendMessage base idx const17 action2 repeats st).1 = true) :
    criticalSection (sendMessage base idx const17 action2 repeats st).2 =
      sendMessageLoop (sendMessagePayload base idx const17 action2) repeats.toNat ++
        sendPreambleAndTrailer := by
  rw [sendMessage_ok_trace base idx const17 action2 repeats st hok]
  unfold criticalSection
  rw [dropWhile_append_cons, List.drop_one, List.tail_cons, takeWhile_append_cons]
  · intro e he
    have hp : isPulseEvent e = true := by
      rcases List.mem_append.1 he with h | h
      · exact sendMessageLoop_pulse _ _ e h
      · exact sendPreambleAndTrailer_pulse e h
    cases e <;> simp_all [isPulseEvent, isGpioWrite, isPulseDelay]
  · simp
  · intro e he
    simp only [List.mem_append, List.mem_singleton] at he
    rcases he with (h | h) | h
    · have := (serial_is_quiet e (byteArrayFromInt9bit_log_serial _ e h)).2.2.1
      simpa using this
    · have := (serial_is_quiet e (byteArrayFromInt_log_serial _ e h)).2.2.1
      simpa using this
    · rw [h]
      decide
  · simp


/-- All timed steps of a successful call are those of the loop and the final burst. -/
theorem pulseTrain_ok (base idx : Int) (const17 action2 : List Char) (repeats st : Int)
    (hok : (sendMessage base idx const17 action2 repeats st).1 = true) :
    pulseTrain (sendMessage base idx const17 action2 repeats st).2 =
      (List.replicate repeats.toNat
        (preamblePulses ++ bitPulses (sendMessagePayload base idx const17 action2))).flatten
        ++ preamblePulses := by
  rw [sendMessage_ok_trace base idx const17 action2 repeats st hok, pulseTrain_skip]
  · have hcons : ∀ l : List Event, pulseTrain (Event.noInterrupts :: l) = pulseTrain l := by
      intro l
      simp [pulseTrain]
    rw [hcons, List.append_assoc, pulseTrain_sendMessageLoop, pulseTrain_preamble]
    simp [pulseTrain]
  · intro e he
    simp only [List.mem_append, List.mem_singleton] at he
    rcases he with (h | h) | h
    · exact (serial_is_quiet e (byteArrayFromInt9bit_log_serial _ e h)).1
    · exact (serial_is_quiet e (byteArrayFromInt_log_serial _ e h)).1
    · rw [h]
      rfl

/-- C7: in a successful call with repeat count r >= 1 the events inside the critical
section are exactly r repetitions of (the events of `sendPreambleAndTrailer`, then those
of `sendBitString` on the frame), followed by one more `sendPreambleAndTrailer`; as timed
steps: r times (preamble, frame bits), then one preamble. -/
theorem burst_structure (base idx : Int) (const17 action2 : List Char) (repeats st : Int)
    (hr : 1 ≤ repeats)
    (hok : (sendMessage base idx const17 action2 repeats st).1 = true) :
    (repeats.toNat : Int) = repeats ∧
      criticalSection (sendMessage base idx const17 action2 repeats st).2 =
        (List.replicate repeats.toNat
          (sendPreambleAndTrailer ++
            sendBitString (sendMessagePayload base idx const17 action2))).flatten ++
          sendPreambleAndTrailer ∧
      pulseTrain (criticalSection (sendMessage base idx const17 action2 repeats st).2) =
        (List.replicate repeats.toNat
          (preamblePulses ++ bitPulses (sendMessagePayload base idx const17 action2))).flatten
          ++ preamblePulses := by
  refine ⟨Int.toNat_of_nonneg (by omega), ?_, ?_⟩
  · rw [criticalSection_ok base idx const17 action2 repeats st hok,
      sendMessageLoop_eq_replicate]
  · rw [criticalSection_ok base idx const17 action2 repeats st hok,
      pulseTrain_sendMessageLoop]
    have := pulseTrain_preamble []
    simp only [List.append_nil] at this
    rw [this]
    simp [pulseTrain]

theorem burst_structure_witness :
    ((3 : Int).toNat : Int) = 3 ∧
      criticalSection (sendMessage BASE_UP 2 CONST_17 ACTION_UP 3 RADIOLIB_ERR_NONE).2 =
        (List.replicate (3 : Int).toNat
          (sendPreambleAndTrailer ++
            sendBitString (sendMessagePayload BASE_UP 2 CONST_17 ACTION_UP))).flatten ++
          sendPreambleAndTrailer ∧
      pulseTrain
          (criticalSection (sendMessage BASE_UP 2 CONST_17 ACTION_UP 3 RADIOLIB_ERR_NONE).2) =
        (List.replicate (3 : Int).toNat
          (preamblePulses ++ bitPulses (sendMessagePayload BASE_UP 2 CONST_17 ACTION_UP))).flatten
          ++ preamblePulses :=
  burst_structure BASE_UP 2 CONST_17 ACTION_UP 3 RADIOLIB_ERR_NONE (by decide) (by decide)


theorem bitPulses_countP_high (s : List Char) :
    (bitPulses s).countP (fun q => q.1) = s.length := by
  induction s with
  | nil => rfl
  | cons c s ih =>
    rw [bitPulses_cons, List.countP_cons, List.countP_cons, ih]
    simp

theorem bitPulses_countP_low (s : List Char) :
    (bitPulses s).countP (fun q => !q.1) = s.length := by
  induction s with
  | nil => rfl
  | cons c s ih =>
    rw [bitPulses_cons, List.countP_cons, List.countP_cons, ih]
    simp

/-- Size of the pulse train of `n` payload bursts followed by the final burst. -/
theorem burst_counts (p : List Char) (n : Nat) :
    ((List.replicate n (preamblePulses ++ bitPulses p)).flatten ++ preamblePulses).length
        = n * (5 + 2 * p.length) + 5 ∧
      ((List.replicate n (preamblePulses ++ bitPulses p)).flatten ++ preamblePulses).countP
        (fun q => q.1) = n * (2 + p.length) + 2 ∧
      ((List.replicate n (preamblePulses ++ bitPulses p)).flatten ++ preamblePulses).countP
        (fun q => !q.1) = n * (3 + p.length) + 3 := by
  induction n with
  | zero => exact ⟨by simp [preamblePulses], by simp [preamblePulses], by simp [preamblePulses]⟩
  | succ n ih =>
    obtain ⟨h1, h2, h3⟩ := ih
    rw [List.replicate_succ, List.flatten_cons, List.append_assoc]
    refine ⟨?_, ?_, ?_⟩
    · rw [List.length_append, h1, List.length_append, bitPulses_length]
      simp only [preamblePulses, List.length_cons, List.length_nil]
      ring
    · rw [List.countP_append, h2, List.countP_append, bitPulses_countP_high]
      simp only [preamblePulses, List.countP_cons, List.countP_nil]
      simp
      ring
    · rw [List.countP_append, h3, List.countP_append, bitPulses_countP_low]
      simp only [preamblePulses, List.countP_cons, List.countP_nil]
      simp
      ring

/-- The ten events of one preamble/trailer burst, as register writes and delays. -/
theorem sendPreambleAndTrailer_events :
    sendPreambleAndTrailer =
      [Event.gpio_output_set 0 16 16 0, Event.delayMicroseconds 4000,
        Event.gpio_output_set 16 0 16 0, Event.delayMicroseconds 4000,
        Event.gpio_output_set 0 16 16 0, Event.delayMicroseconds 4000,
        Event.gpio_output_set 16 0 16 0, Event.delayMicroseconds 4000,
        Event.gpio_output_set 0 16 16 0, Event.delayMicroseconds 4000] := by
  decide

theorem lineTrain_sendMessageLoop (p : List Char) (n : Nat) (rest : List Event) :
    lineTrain (sendMessageLoop p n ++ rest) =
      (List.replicate n (preambleSteps ++ bitSteps p)).flatten ++ lineTrain rest := by
  induction n with
  | zero => rfl
  | succ n ih =>
    rw [sendMessageLoop, List.append_assoc, List.append_assoc, lineTrain_preamble,
      lineTrain_sendBitString, ih, List.replicate_succ, List.flatten_cons]
    simp only [List.append_assoc]

/-- All line steps of a successful call are those of the loop and the final burst. -/
theorem lineTrain_ok (base idx : Int) (const17 action2 : List Char) (repeats st : Int)
    (hok : (sendMessage base idx const17 action2 repeats st).1 = true) :
    lineTrain (sendMessage base idx const17 action2 repeats st).2 =
      (List.replicate repeats.toNat
        (preambleSteps ++ bitSteps (sendMessagePayload base idx const17 action2))).flatten
        ++ preambleSteps := by
  rw [sendMessage_ok_trace base idx const17 action2 repeats st hok, lineTrain_skip]
  · have hcons : ∀ l : List Event, lineTrain (Event.noInterrupts :: l) = lineTrain l := by
      intro l
      simp [lineTrain]
    rw [hcons, List.append_assoc, lineTrain_sendMessageLoop, lineTrain_preamble]
    simp [lineTrain]
  · intro e he
    simp only [List.mem_append, List.mem_singleton] at he
    rcases he with (h | h) | h
    · exact (serial_is_quiet e (byteArrayFromInt9bit_log_serial _ e h)).1
    · exact (serial_is_quiet e (byteArrayFromInt_log_serial _ e h)).1
    · rw [h]
      rfl

theorem bitSteps_countP_high (s : List Char) :
    (bitSteps s).countP (fun q => decide (q.1 = some true)) = s.length := by
  induction s with
  | nil => rfl
  | cons c s ih =>
    rw [bitSteps_cons, List.countP_cons, List.countP_cons, ih]
    simp

theorem bitSteps_countP_low (s : List Char) :
    (bitSteps s).countP (fun q => decide (q.1 = some false)) = s.length := by
  induction s with
  | nil => rfl
  | cons c s ih =>
    rw [bitSteps_cons, List.countP_cons, List.countP_cons, ih]
    simp

/-- Size of the line steps of `n` payload bursts followed by the final burst. -/
theorem line_burst_counts (p : List Char) (n : Nat) :
    ((List.replicate n (preambleSteps ++ bitSteps p)).flatten ++ preambleSteps).length
        = n * (5 + 2 * p.length) + 5 ∧
      ((List.replicate n (preambleSteps ++ bitSteps p)).flatten ++ preambleSteps).countP
        (fun q => decide (q.1 = some true)) = n * (2 + p.length) + 2 ∧
      ((List.replicate n (preambleSteps ++ bitSteps p)).flatten ++ preambleSteps).countP
        (fun q => decide (q.1 = some false)) = n * (3 + p.length) + 3 := by
  induction n with
  | zero => exact ⟨by simp [preambleSteps], by simp [preambleSteps], by simp [preambleSteps]⟩
  | succ n ih =>
    obtain ⟨h1, h2, h3⟩ := ih
    rw [List.replicate_succ, List.flatten_cons, List.append_assoc]
    refine ⟨?_, ?_, ?_⟩
    · rw [List.length_append, h1, List.length_append, bitSteps_length]
      simp only [preambleSteps, List.length_cons, List.length_nil]
      ring
    · rw [List.countP_append, h2, List.countP_append, bitSteps_countP_high]
      simp only [preambleSteps, List.countP_cons, List.countP_nil]
      simp
      ring
    · rw [List.countP_append, h3, List.countP_append, bitSteps_countP_low]
      simp only [preambleSteps, List.countP_cons, List.countP_nil]
      simp
      ring

theorem countP_write_sendBitString (s : List Char) :
    (sendBitString s).countP isGpioWrite = 2 * s.length := by
  induction s with
  | nil => rfl
  | cons c s ih =>
    rw [sendBitString_cons]
    simp only [List.countP_cons, ih, isGpioWrite, List.length_cons]
    simp
    omega

theorem countP_write_preamble : sendPreambleAndTrailer.countP isGpioWrite = 5 := by
  decide

theorem countP_write_sendMessageLoop (p : List Char) (n : Nat) :
    (sendMessageLoop p n).countP isGpioWrite = n * (5 + 2 * p.length) := by
  induction n with
  | zero => simp [sendMessageLoop]
  | succ n ih =>
    simp only [sendMessageLoop, List.countP_append, countP_write_preamble,
      countP_write_sendBitString, ih]
    ring

/-- The number of GPIO writes of a successful call. -/
theorem countP_write_ok (base idx : Int) (const17 action2 : List Char) (repeats st : Int)
    (hok : (sendMessage base idx const17 action2 repeats st).1 = true) :
    (sendMessage base idx const17 action2 repeats st).2.countP isGpioWrite =
      repeats.toNat * (5 + 2 * (sendMessagePayload base idx const17 action2).length) + 5 := by
  have h9 : (byteArrayFromInt9bit (wrapInt32 (base + idx))).2.countP isGpioWrite = 0 := by
    rw [List.countP_eq_zero]
    intro e he
    simp [(serial_is_quiet e (byteArrayFromInt9bit_log_serial _ e he)).1]
  have h4 : (byteArrayFromInt idx).2.countP isGpioWrite = 0 := by
    rw [List.countP_eq_zero]
    intro e he
    simp [(serial_is_quiet e (byteArrayFromInt_log_serial _ e he)).1]
  rw [sendMessage_ok_trace base idx const17 action2 repeats st hok]
  simp only [List.countP_append, List.countP_cons, List.countP_nil, h9, h4,
    countP_write_sendMessageLoop, countP_write_preamble, isGpioWrite]
  simp

set_option maxRecDepth 100000 in
/-- C8 (counterexample): the preamble is five timed steps, low first, and not the start
marker (high, low) three times; a successful transmission with repeat count 1 has 92
timed steps, 45 of them high, and not 88 + 6 = 94 steps in 44 + 3 = 47 pairs. -/
theorem preamble_is_not_three_pairs :
    pulseTrain sendPreambleAndTrailer ≠
        (List.replicate 3 [(true, 4000), (false, 4000)]).flatten ∧
      (pulseTrain sendPreambleAndTrailer).length = 5 ∧
      (sendMessage BASE_UP 2 CONST_17 ACTION_UP 1 RADIOLIB_ERR_NONE).1 = true ∧
      (pulseTrain (sendMessage BASE_UP 2 CONST_17 ACTION_UP 1 RADIOLIB_ERR_NONE).2).length
        = 92 ∧
      (pulseTrain (sendMessage BASE_UP 2 CONST_17 ACTION_UP 1 RADIOLIB_ERR_NONE).2).countP
        (fun q => q.1) = 45 := by
  decide

/-- C8 (amended): for a successful transmission of a 41-bit frame with repeat count r >= 1
the preamble is the five timed steps low, high, low, high, low of 4000 us each, where
low is the register write `gpio_output_set(0, 1 << 4, 1 << 4, 0)` (clears the output of
the data pin, driver enabled) and high is `gpio_output_set(1 << 4, 0, 1 << 4, 0)` (sets
it, driver enabled); the call performs 5 preamble steps and 82 payload steps per repeat
plus one final 5-step preamble, i.e. 87 r + 5 GPIO writes, each a timed step, of which
43 r + 2 drive the line high and 44 r + 3 drive it low. -/
theorem pulse_count (base idx : Int) (const17 action2 : List Char) (repeats st : Int)
    (hr : 1 ≤ repeats)
    (hok : (sendMessage base idx const17 action2 repeats st).1 = true) :
    pulseTrain sendPreambleAndTrailer =
        [(false, 4000), (true, 4000), (false, 4000), (true, 4000), (false, 4000)] ∧
      ((pulseTrain (sendMessage base idx const17 action2 repeats st).2).length : Int)
        = 87 * repeats + 5 ∧
      (((pulseTrain (sendMessage base idx const17 action2 repeats st).2).countP
        (fun q => q.1) : Nat) : Int) = 43 * repeats + 2 ∧
      (((pulseTrain (sendMessage base idx const17 action2 repeats st).2).countP
        (fun q => !q.1) : Nat) : Int) = 44 * repeats + 3 ∧
      sendPreambleAndTrailer =
        [Event.gpio_output_set 0 16 16 0, Event.delayMicroseconds 4000,
          Event.gpio_output_set 16 0 16 0, Event.delayMicroseconds 4000,
          Event.gpio_output_set 0 16 16 0, Event.delayMicroseconds 4000,
          Event.gpio_output_set 16 0 16 0, Event.delayMicroseconds 4000,
          Event.gpio_output_set 0 16 16 0, Event.delayMicroseconds 4000] ∧
      lineTrain sendPreambleAndTrailer =
        [(some false, 4000), (some true, 4000), (some false, 4000), (some true, 4000),
          (some false, 4000)] ∧
      (((sendMessage base idx const17 action2 repeats st).2.countP isGpioWrite : Nat) : Int)
        = 87 * repeats + 5 ∧
      ((lineTrain (sendMessage base idx const17 action2 repeats st).2).length : Int)
        = 87 * repeats + 5 ∧
      (((lineTrain (sendMessage base idx const17 action2 repeats st).2).countP
        (fun q => decide (q.1 = some true)) : Nat) : Int) = 43 * repeats + 2 ∧
      (((lineTrain (sendMessage base idx const17 action2 repeats st).2).countP
        (fun q => decide (q.1 = some false)) : Nat) : Int) = 44 * repeats + 3 := by
  obtain ⟨hl, _⟩ := (sendMessage_ok_iff _ _ _ _ _ _).1 hok
  obtain ⟨h1, h2, h3⟩ :=
    burst_counts (sendMessagePayload base idx const17 action2) repeats.toNat
  obtain ⟨k1, k2, k3⟩ :=
    line_burst_counts (sendMessagePayload base idx const17 action2) repeats.toNat
  have hn : (repeats.toNat : Int) = repeats := Int.toNat_of_nonneg (by omega)
  rw [pulseTrain_ok base idx const17 action2 repeats st hok,
    lineTrain_ok base idx const17 action2 repeats st hok,
    countP_write_ok base idx const17 action2 repeats st hok, h1, h2, h3, k1, k2, k3, hl]
  refine ⟨by decide, ?_, ?_, ?_, sendPreambleAndTrailer_events, by decide, ?_, ?_, ?_, ?_⟩
    <;> push_cast <;> rw [hn] <;> ring

theorem pulse_count_witness :
    pulseTrain sendPreambleAndTrailer =
        [(false, 4000), (true, 4000), (false, 4000), (true, 4000), (false, 4000)] ∧
      ((pulseTrain (sendMessage BASE_UP 2 CONST_17 ACTION_UP 3 RADIOLIB_ERR_NONE).2).length
        : Int) = 87 * 3 + 5 ∧
      (((pulseTrain (sendMessage BASE_UP 2 CONST_17 ACTION_UP 3 RADIOLIB_ERR_NONE).2).countP
        (fun q => q.1) : Nat) : Int) = 43 * 3 + 2 ∧
      (((pulseTrain (sendMessage BASE_UP 2 CONST_17 ACTION_UP 3 RADIOLIB_ERR_NONE).2).countP
        (fun q => !q.1) : Nat) : Int) = 44 * 3 + 3 ∧
      sendPreambleAndTrailer =
        [Event.gpio_output_set 0 16 16 0, Event.delayMicroseconds 4000,
          Event.gpio_output_set 16 0 16 0, Event.delayMicroseconds 4000,
          Event.gpio_output_set 0 16 16 0, Event.delayMicroseconds 4000,
          Event.gpio_output_set 16 0 16 0, Event.delayMicroseconds 4000,
          Event.gpio_output_set 0 16 16 0, Event.delayMicroseconds 4000] ∧
      lineTrain sendPreambleAndTrailer =
        [(some false, 4000), (some true, 4000), (some false, 4000), (some true, 4000),
          (some false, 4000)] ∧
      (((sendMessage BASE_UP 2 CONST_17 ACTION_UP 3 RADIOLIB_ERR_NONE).2.countP isGpioWrite
        : Nat) : Int) = 87 * 3 + 5 ∧
      ((lineTrain (sendMessage BASE_UP 2 CONST_17 ACTION_UP 3 RADIOLIB_ERR_NONE).2).length
        : Int) = 87 * 3 + 5 ∧
      (((lineTrain (sendMessage BASE_UP 2 CONST_17 ACTION_UP 3 RADIOLIB_ERR_NONE).2).countP
        (fun q => decide (q.1 = some true)) : Nat) : Int) = 43 * 3 + 2 ∧
      (((lineTrain (sendMessage BASE_UP 2 CONST_17 ACTION_UP 3 RADIOLIB_ERR_NONE).2).countP
        (fun q => decide (q.1 = some false)) : Nat) : Int) = 44 * 3 + 3 :=
  pulse_count BASE_UP 2 CONST_17 ACTION_UP 3 RADIOLIB_ERR_NONE (by decide) (by decide)

/-! ## Command selection -/

theorem handlerCalls_get (a : Action) (k : Nat) (hk : k < 16) :
    (handlerCalls a)[k]? = some (handlerCall a (k : Int)) := by
  cases a <;>
    simp only [handlerCalls, handlerCall, handleRaise, handleLower, handlePause,
      List.getElem?_map, List.getElem?_range hk, Option.map_some']

theorem handleDynamic_route (toInt : List Char → Int) (a : Action) (rest : List Char) :
    handleDynamic toInt (routePath a ++ rest) = some (handlerCall a (toInt rest)) := by
  cases a <;>
    simp [handleDynamic, routePath, handlerCall, handleRaiseCall, handleLowerCall,
      handlePauseCall] <;>
    split <;> rfl

/-- C10 (counterexample): PAUSE is not swapped at device index 1: the all-device handler
and the route `/pause/1` both select PAUSE's own pair `BASE_STOP` / `ACTION_STOP`. -/
theorem pause_not_swapped_at_index_one :
    (handlerCall Action.PAUSE 1).pair = ownPair Action.PAUSE ∧
      handlePause[1]? = some ⟨BASE_STOP, 1, CONST_17, ACTION_STOP⟩ ∧
      handleDynamic (fun _ => 1) "/pause/1".toList =
        some ⟨BASE_STOP, 1, CONST_17, ACTION_STOP⟩ := by
  decide

/-- C10 (amended): the (base constant, action code) pair is swapped at device index 1, and
only there, for RAISE and LOWER: at index 1 RAISE uses `BASE_DOWN` / `ACTION_DOWN` and
LOWER uses `BASE_UP` / `ACTION_UP`, while PAUSE uses `BASE_STOP` / `ACTION_STOP` at every
index, 1 included; at every index other than 1 each action uses its own pair. This is the
selection of the all-device handlers (loop counters 0..15) and of the single-device
routes (any parsed index), which also pass the index and `CONST_17` on unchanged. -/
theorem device_one_swap (i : Int) (hi : i ≠ 1) (toInt : List Char → Int)
    (rest : List Char) :
    (handlerCall Action.RAISE 1).pair = (BASE_DOWN, ACTION_DOWN) ∧
      (handlerCall Action.LOWER 1).pair = (BASE_UP, ACTION_UP) ∧
      (handlerCall Action.PAUSE 1).pair = (BASE_STOP, ACTION_STOP) ∧
      (handlerCall Action.RAISE i).pair = (BASE_UP, ACTION_UP) ∧
      (handlerCall Action.LOWER i).pair = (BASE_DOWN, ACTION_DOWN) ∧
      (handlerCall Action.PAUSE i).pair = (BASE_STOP, ACTION_STOP) ∧
      (∀ a : Action, (handlerCall a i).idx = i ∧ (handlerCall a i).const17 = CONST_17 ∧
        (handlerCall a 1).idx = 1 ∧ (handlerCall a 1).const17 = CONST_17) ∧
      (∀ (a : Action) (k : Nat), k < 16 →
        (handlerCalls a)[k]? = some (handlerCall a (k : Int))) ∧
      (∀ a : Action,
        handleDynamic toInt (routePath a ++ rest) = some (handlerCall a (toInt rest))) := by
  refine ⟨rfl, rfl, rfl, ?_, ?_, rfl, ?_, handlerCalls_get, fun a => handleDynamic_route toInt a rest⟩
  · simp [handlerCall, handleRaiseCall, hi, SendCall.pair]
  · simp [handlerCall, handleLowerCall, hi, SendCall.pair]
  · intro a
    cases a <;>
      simp [handlerCall, handleRaiseCall, handleLowerCall, handlePauseCall, hi]

theorem device_one_swap_witness :
    (handlerCall Action.RAISE 1).pair = (BASE_DOWN, ACTION_DOWN) ∧
      (handlerCall Action.LOWER 1).pair = (BASE_UP, ACTION_UP) ∧
      (handlerCall Action.PAUSE 1).pair = (BASE_STOP, ACTION_STOP) ∧
      (handlerCall Action.RAISE 5).pair = (BASE_UP, ACTION_UP) ∧
      (handlerCall Action.LOWER 5).pair = (BASE_DOWN, ACTION_DOWN) ∧
      (handlerCall Action.PAUSE 5).pair = (BASE_STOP, ACTION_STOP) ∧
      (∀ a : Action, (handlerCall a 5).idx = 5 ∧ (handlerCall a 5).const17 = CONST_17 ∧
        (handlerCall a 1).idx = 1 ∧ (handlerCall a 1).const17 = CONST_17) ∧
      (∀ (a : Action) (k : Nat), k < 16 →
        (handlerCalls a)[k]? = some (handlerCall a (k : Int))) ∧
      (∀ a : Action,
        handleDynamic (fun _ => 5) (routePath a ++ "5".toList) =
          some (handlerCall a ((fun _ => 5) "5".toList))) :=
  device_one_swap 5 (by decide) (fun _ => 5) "5".toList


/-! ## Critical section -/

/-- Only a successful call enters the critical section. -/
theorem ok_of_noInterrupts_mem (base idx : Int) (const17 action2 : List Char)
    (repeats st : Int)
    (hin : Event.noInterrupts ∈ (sendMessage base idx const17 action2 repeats st).2) :
    (sendMessage base idx const17 action2 repeats st).1 = true := by
  cases hb : (sendMessage base idx const17 action2 repeats st).1 with
  | true => rfl
  | false =>
    exfalso
    rcases sendMessage_fail_trace base idx const17 action2 repeats st hb with
      ⟨_, ht⟩ | ⟨_, _, ht⟩
    · rw [ht] at hin
      simp only [List.mem_append, List.mem_singleton] at hin
      rcases hin with (h | h) | h
      · exact (serial_is_quiet _ (byteArrayFromInt9bit_log_serial _ _ h)).2.2.1 rfl
      · exact (serial_is_quiet _ (byteArrayFromInt_log_serial _ _ h)).2.2.1 rfl
      · cases h
    · rw [ht] at hin
      simp only [List.mem_append, List.mem_cons, List.mem_singleton, List.not_mem_nil,
        or_false] at hin
      rcases hin with (h | h) | h | h
      · exact (serial_is_quiet _ (byteArrayFromInt9bit_log_serial _ _ h)).2.2.1 rfl
      · exact (serial_is_quiet _ (byteArrayFromInt_log_serial _ _ h)).2.2.1 rfl
      · cases h
      · cases h

/-- C11: the trace of every `sendMessage` call that enters the critical section splits as
`before ++ noInterrupts :: inside ++ [interrupts, packetMode, delay 1]`: nothing before
`noInterrupts` is a GPIO write or a pulse delay, everything inside is a GPIO write or a
pulse delay, `inside` is the whole critical section, interrupts are re-enabled right
after it, `radio.packetMode()` follows, and the call returns true. -/
theorem critical_section_bracketing (base idx : Int) (const17 action2 : List Char)
    (repeats st : Int)
    (hin : Event.noInterrupts ∈ (sendMessage base idx const17 action2 repeats st).2) :
    ∃ before inside : List Event,
      (sendMessage base idx const17 action2 repeats st).2 =
          before ++ Event.noInterrupts ::
            (inside ++ [Event.interrupts, Event.packetMode, Event.delay 1]) ∧
        (∀ e ∈ before,
          isGpioWrite e = false ∧ isPulseDelay e = false ∧ e ≠ Event.noInterrupts) ∧
        (∀ e ∈ inside, isPulseEvent e = true) ∧
        inside = criticalSection (sendMessage base idx const17 action2 repeats st).2 ∧
        (sendMessage base idx const17 action2 repeats st).1 = true := by
  have hok := ok_of_noInterrupts_mem base idx const17 action2 repeats st hin
  refine ⟨(byteArrayFromInt9bit (wrapInt32 (base + idx))).2 ++ (byteArrayFromInt idx).2 ++
      [Event.transmitDirectAsync],
    sendMessageLoop (sendMessagePayload base idx const17 action2) repeats.toNat ++
      sendPreambleAndTrailer,
    sendMessage_ok_trace base idx const17 action2 repeats st hok, ?_, ?_,
    (criticalSection_ok base idx const17 action2 repeats st hok).symm, hok⟩
  · intro e he
    simp only [List.mem_append, List.mem_singleton] at he
    rcases he with (h | h) | h
    · have hq := serial_is_quiet e (byteArrayFromInt9bit_log_serial _ e h)
      exact ⟨hq.1, hq.2.1, hq.2.2.1⟩
    · have hq := serial_is_quiet e (byteArrayFromInt_log_serial _ e h)
      exact ⟨hq.1, hq.2.1, hq.2.2.1⟩
    · rw [h]
      exact ⟨rfl, rfl, by decide⟩
  · intro e he
    rcases List.mem_append.1 he with h | h
    · exact sendMessageLoop_pulse _ _ e h
    · exact sendPreambleAndTrailer_pulse e h

set_option maxRecDepth 100000 in
theorem critical_section_bracketing_witness :
    ∃ before inside : List Event,
      (sendMessage BASE_UP 2 CONST_17 ACTION_UP 3 RADIOLIB_ERR_NONE).2 =
          before ++ Event.noInterrupts ::
            (inside ++ [Event.interrupts, Event.packetMode, Event.delay 1]) ∧
        (∀ e ∈ before,
          isGpioWrite e = false ∧ isPulseDelay e = false ∧ e ≠ Event.noInterrupts) ∧
        (∀ e ∈ inside, isPulseEvent e = true) ∧
        inside =
          criticalSection (sendMessage BASE_UP 2 CONST_17 ACTION_UP 3 RADIOLIB_ERR_NONE).2 ∧
        (sendMessage BASE_UP 2 CONST_17 ACTION_UP 3 RADIOLIB_ERR_NONE).1 = true :=
  critical_section_bracketing BASE_UP 2 CONST_17 ACTION_UP 3 RADIOLIB_ERR_NONE (by decide)

/-- C19: for every repeat count r <= 0, with a 41-bit frame and successful direct-mode
entry, `sendMessage` returns true and its trace is the serial output of the encoders,
the mode request, `noInterrupts`, the ten events of a single `sendPreambleAndTrailer`
burst, `interrupts`, `packetMode` and `delay(1)`: the line is driven low, high, low,
high, low for 4000 us each, where low is the write `gpio_output_set(0, 1 << 4, 1 << 4, 0)`
and high the write `gpio_output_set(1 << 4, 0, 1 << 4, 0)`, and no payload bit is
rendered (the call makes five GPIO writes in all). -/
theorem nonpositive_repeats_send_only_trailer (base idx : Int) (const17 action2 : List Char)
    (repeats : Int) (hr : repeats ≤ 0)
    (hl : (sendMessagePayload base idx const17 action2).length = 41) :
    (sendMessage base idx const17 action2 repeats RADIOLIB_ERR_NONE).1 = true ∧
      criticalSection (sendMessage base idx const17 action2 repeats RADIOLIB_ERR_NONE).2 =
        sendPreambleAndTrailer ∧
      pulseTrain (sendMessage base idx const17 action2 repeats RADIOLIB_ERR_NONE).2 =
        [(false, 4000), (true, 4000), (false, 4000), (true, 4000), (false, 4000)] ∧
      (sendMessage base idx const17 action2 repeats RADIOLIB_ERR_NONE).2 =
        (byteArrayFromInt9bit (wrapInt32 (base + idx))).2 ++ (byteArrayFromInt idx).2 ++
          [Event.transmitDirectAsync, Event.noInterrupts,
            Event.gpio_output_set 0 16 16 0, Event.delayMicroseconds 4000,
            Event.gpio_output_set 16 0 16 0, Event.delayMicroseconds 4000,
            Event.gpio_output_set 0 16 16 0, Event.delayMicroseconds 4000,
            Event.gpio_output_set 16 0 16 0, Event.delayMicroseconds 4000,
            Event.gpio_output_set 0 16 16 0, Event.delayMicroseconds 4000,
            Event.interrupts, Event.packetMode, Event.delay 1] ∧
      criticalSection (sendMessage base idx const17 action2 repeats RADIOLIB_ERR_NONE).2 =
        [Event.gpio_output_set 0 16 16 0, Event.delayMicroseconds 4000,
          Event.gpio_output_set 16 0 16 0, Event.delayMicroseconds 4000,
          Event.gpio_output_set 0 16 16 0, Event.delayMicroseconds 4000,
          Event.gpio_output_set 16 0 16 0, Event.delayMicroseconds 4000,
          Event.gpio_output_set 0 16 16 0, Event.delayMicroseconds 4000] ∧
      lineTrain (sendMessage base idx const17 action2 repeats RADIOLIB_ERR_NONE).2 =
        [(some false, 4000), (some true, 4000), (some false, 4000), (some true, 4000),
          (some false, 4000)] ∧
      (sendMessage base idx const17 action2 repeats RADIOLIB_ERR_NONE).2.countP isGpioWrite
        = 5 := by
  have hok : (sendMessage base idx const17 action2 repeats RADIOLIB_ERR_NONE).1 = true :=
    (sendMessage_ok_iff _ _ _ _ _ _).2 ⟨hl, rfl⟩
  have h0 : repeats.toNat = 0 := Int.toNat_eq_zero.2 hr
  have hcs :
      criticalSection (sendMessage base idx const17 action2 repeats RADIOLIB_ERR_NONE).2 =
        sendPreambleAndTrailer := by
    rw [criticalSection_ok base idx const17 action2 repeats _ hok, h0]
    rfl
  refine ⟨hok, hcs, ?_, ?_, ?_, ?_, ?_⟩
  · rw [pulseTrain_ok base idx const17 action2 repeats _ hok, h0]
    rfl
  · rw [sendMessage_ok_trace base idx const17 action2 repeats _ hok, h0,
      sendPreambleAndTrailer_events]
    simp [sendMessageLoop]
  · rw [hcs, sendPreambleAndTrailer_events]
  · rw [lineTrain_ok base idx const17 action2 repeats _ hok, h0]
    rfl
  · rw [countP_write_ok base idx const17 action2 repeats _ hok, h0]
    omega

theorem nonpositive_repeats_send_only_trailer_witness :
    (sendMessage BASE_UP 2 CONST_17 ACTION_UP (-1) RADIOLIB_ERR_NONE).1 = true ∧
      criticalSection (sendMessage BASE_UP 2 CONST_17 ACTION_UP (-1) RADIOLIB_ERR_NONE).2 =
        sendPreambleAndTrailer ∧
      pulseTrain (sendMessage BASE_UP 2 CONST_17 ACTION_UP (-1) RADIOLIB_ERR_NONE).2 =
        [(false, 4000), (true, 4000), (false, 4000), (true, 4000), (false, 4000)] ∧
      (sendMessage BASE_UP 2 CONST_17 ACTION_UP (-1) RADIOLIB_ERR_NONE).2 =
        (byteArrayFromInt9bit (wrapInt32 (BASE_UP + 2))).2 ++ (byteArrayFromInt 2).2 ++
          [Event.transmitDirectAsync, Event.noInterrupts,
            Event.gpio_output_set 0 16 16 0, Event.delayMicroseconds 4000,
            Event.gpio_output_set 16 0 16 0, Event.delayMicroseconds 4000,
            Event.gpio_output_set 0 16 16 0, Event.delayMicroseconds 4000,
            Event.gpio_output_set 16 0 16 0, Event.delayMicroseconds 4000,
            Event.gpio_output_set 0 16 16 0, Event.delayMicroseconds 4000,
            Event.interrupts, Event.packetMode, Event.delay 1] ∧
      criticalSection (sendMessage BASE_UP 2 CONST_17 ACTION_UP (-1) RADIOLIB_ERR_NONE).2 =
        [Event.gpio_output_set 0 16 16 0, Event.delayMicroseconds 4000,
          Event.gpio_output_set 16 0 16 0, Event.delayMicroseconds 4000,
          Event.gpio_output_set 0 16 16 0, Event.delayMicroseconds 4000,
          Event.gpio_output_set 16 0 16 0, Event.delayMicroseconds 4000,
          Event.gpio_output_set 0 16 16 0, Event.delayMicroseconds 4000] ∧
      lineTrain (sendMessage BASE_UP 2 CONST_17 ACTION_UP (-1) RADIOLIB_ERR_NONE).2 =
        [(some false, 4000), (some true, 4000), (some false, 4000), (some true, 4000),
          (some false, 4000)] ∧
      (sendMessage BASE_UP 2 CONST_17 ACTION_UP (-1) RADIOLIB_ERR_NONE).2.countP isGpioWrite
        = 5 :=
  nonpositive_repeats_send_only_trailer BASE_UP 2 CONST_17 ACTION_UP (-1) (by decide)
    (by decide)

/-! ## Field validation -/

/-- The device-index field of the payload, characters 3..6. -/
theorem sendMessagePayload_index (base idx : Int) (const17 action2 : List Char) :
    ((sendMessagePayload base idx const17 action2).drop 3).take 4 =
      (byteArrayFromInt idx).1 := by
  have hsplit : sendMessagePayload base idx const17 action2 =
      "000".toList ++ ((byteArrayFromInt idx).1 ++ (const17 ++ "000000".toList ++
        (byteArrayFromInt9bit (wrapInt32 (base + idx))).1 ++ action2)) := by
    simp only [sendMessagePayload, List.append_assoc]
  have h3 : "000".toList.length = 3 := rfl
  rw [hsplit, List.drop_left' h3, List.take_left' (byteArrayFromInt_length _)]

/-- The serial output of the 4-bit encoder is part of the trace of `sendMessage`. -/
theorem log4_mem (base idx : Int) (const17 action2 : List Char) (repeats st : Int)
    (e : Event) (he : e ∈ (byteArrayFromInt idx).2) :
    e ∈ (sendMessage base idx const17 action2 repeats st).2 := by
  unfold sendMessage
  by_cases hl : (sendMessagePayload base idx const17 action2).length = 41
  · by_cases hs : st = RADIOLIB_ERR_NONE <;> simp [hl, hs, he]
  · simp [hl, he]

/-- A successful call emits pulses. -/
theorem pulseTrain_ne_nil (base idx : Int) (const17 action2 : List Char) (repeats st : Int)
    (hok : (sendMessage base idx const17 action2 repeats st).1 = true) :
    pulseTrain (sendMessage base idx const17 action2 repeats st).2 ≠ [] := by
  rw [pulseTrain_ok base idx const17 action2 repeats st hok]
  simp [preamblePulses]

set_option maxRecDepth 100000 in
/-- C12 (counterexample): with device index 16 (the call of route `/raise/16`) and with
device index -1, `sendMessage` returns true and emits 266 timed pulses; the device-index
field of the frame sent for index 16 is `0000`. -/
theorem out_of_range_index_is_sent :
    (sendMessage BASE_UP 16 CONST_17 ACTION_UP 3 RADIOLIB_ERR_NONE).1 = true ∧
      (pulseTrain (sendMessage BASE_UP 16 CONST_17 ACTION_UP 3 RADIOLIB_ERR_NONE).2).length
        = 266 ∧
      ((sendMessagePayload BASE_UP 16 CONST_17 ACTION_UP).drop 3).take 4 = "0000".toList ∧
      (sendMessage BASE_UP (-1) CONST_17 ACTION_UP 3 RADIOLIB_ERR_NONE).1 = true ∧
      (pulseTrain (sendMessage BASE_UP (-1) CONST_17 ACTION_UP 3 RADIOLIB_ERR_NONE).2).length
        = 266 := by
  decide

/-- C12 (amended): for every deviceIndex outside 0..15 the 4-bit encoder reports the value
on the serial port and returns the zero-filled string, so the device-index field of the
frame is `0000` and the transmission is not skipped: with a 17-character protocol id and
a 2-character action code the frame has 41 bits, `sendMessage` asks the radio to enter
direct mode, and it returns true exactly when mode entry succeeds, and then emits
pulses; this holds for every base and repeat count. -/
theorem out_of_range_index_zero_filled (base idx : Int) (const17 action2 : List Char)
    (repeats st : Int) (hout : idx < 0 ∨ 15 < idx)
    (h17 : const17.length = 17) (h2 : action2.length = 2) :
    ((sendMessagePayload base idx const17 action2).drop 3).take 4 = "0000".toList ∧
      (sendMessagePayload base idx const17 action2).length = 41 ∧
      Event.serialPrintf "Input: %d is outside <0,15> range\n" idx ∈
        (sendMessage base idx const17 action2 repeats st).2 ∧
      Event.transmitDirectAsync ∈ (sendMessage base idx const17 action2 repeats st).2 ∧
      ((sendMessage base idx const17 action2 repeats st).1 = true ↔
        st = RADIOLIB_ERR_NONE) ∧
      (st = RADIOLIB_ERR_NONE →
        pulseTrain (sendMessage base idx const17 action2 repeats st).2 ≠ []) := by
  have hl : (sendMessagePayload base idx const17 action2).length = 41 := by
    rw [sendMessagePayload_length, h17, h2]
  have hiff := sendMessage_ok_iff base idx const17 action2 repeats st
  refine ⟨?_, hl, ?_, transmitDirectAsync_mem _ _ _ _ _ _ hl, ?_, ?_⟩
  · rw [sendMessagePayload_index, byteArrayFromInt_out _ hout]
  · apply log4_mem
    rw [byteArrayFromInt_out _ hout]
    exact List.mem_singleton.2 rfl
  · rw [hiff]
    exact ⟨fun h => h.2, fun h => ⟨hl, h⟩⟩
  · intro hs
    exact pulseTrain_ne_nil _ _ _ _ _ _ (hiff.2 ⟨hl, hs⟩)

theorem out_of_range_index_zero_filled_witness :
    ((sendMessagePayload BASE_UP 16 CONST_17 ACTION_UP).drop 3).take 4 = "0000".toList ∧
      (sendMessagePayload BASE_UP 16 CONST_17 ACTION_UP).length = 41 ∧
      Event.serialPrintf "Input: %d is outside <0,15> range\n" 16 ∈
        (sendMessage BASE_UP 16 CONST_17 ACTION_UP 3 RADIOLIB_ERR_NONE).2 ∧
      Event.transmitDirectAsync ∈
        (sendMessage BASE_UP 16 CONST_17 ACTION_UP 3 RADIOLIB_ERR_NONE).2 ∧
      ((sendMessage BASE_UP 16 CONST_17 ACTION_UP 3 RADIOLIB_ERR_NONE).1 = true ↔
        RADIOLIB_ERR_NONE = RADIOLIB_ERR_NONE) ∧
      (RADIOLIB_ERR_NONE = RADIOLIB_ERR_NONE →
        pulseTrain (sendMessage BASE_UP 16 CONST_17 ACTION_UP 3 RADIOLIB_ERR_NONE).2 ≠ []) :=
  out_of_range_index_zero_filled BASE_UP 16 CONST_17 ACTION_UP 3 RADIOLIB_ERR_NONE
    (by decide) rfl rfl

/-- C13 (counterexample): the configured protocol-identity constant has 17 characters, and
with an 18-character protocol id (here the constant with one more leading zero), a
2-character action code, deviceIndex 2 and base 346 the payload has 42 characters and
`sendMessage` returns false although direct-mode entry would succeed. -/
theorem eighteen_bit_protocol_id_is_rejected :
    CONST_17.length = 17 ∧
      "000001001110011111".toList.length = 18 ∧
      (sendMessagePayload BASE_UP 2 "000001001110011111".toList ACTION_UP).length = 42 ∧
      (sendMessage BASE_UP 2 "000001001110011111".toList ACTION_UP 3 RADIOLIB_ERR_NONE).1
        = false := by
  decide

/-- C13 (amended): the protocol-identity field is 17 bits and the field widths
3 + 4 + 17 + 6 + 9 + 2 make up the 41-bit frame: for every 17-character protocolId and
every 2-character action code (and every deviceIndex and base, in particular deviceIndex
in 0..15 with base + deviceIndex in 0..511) the frame passes the 41-bit length validation
of `sendMessage` and the call returns true when direct-mode entry succeeds; `CONST_17` is
such a 17-character string. -/
theorem protocol_id_width (base idx : Int) (protocolId actionCode : List Char)
    (h17 : protocolId.length = 17) (h2 : actionCode.length = 2) :
    (sendMessagePayload base idx protocolId actionCode).length = 3 + 4 + 17 + 6 + 9 + 2 ∧
      (sendMessagePayload base idx protocolId actionCode).length = 41 ∧
      (∀ repeats : Int,
        (sendMessage base idx protocolId actionCode repeats RADIOLIB_ERR_NONE).1 = true) ∧
      CONST_17.length = 17 := by
  have hl : (sendMessagePayload base idx protocolId actionCode).length = 41 := by
    rw [sendMessagePayload_length, h17, h2]
  exact ⟨hl, hl, fun repeats => (sendMessage_ok_iff _ _ _ _ _ _).2 ⟨hl, rfl⟩, rfl⟩

theorem protocol_id_width_witness :
    (sendMessagePayload BASE_UP 2 CONST_17 ACTION_UP).length = 3 + 4 + 17 + 6 + 9 + 2 ∧
      (sendMessagePayload BASE_UP 2 CONST_17 ACTION_UP).length = 41 ∧
      (∀ repeats : Int,
        (sendMessage BASE_UP 2 CONST_17 ACTION_UP repeats RADIOLIB_ERR_NONE).1 = true) ∧
      CONST_17.length = 17 :=
  protocol_id_width BASE_UP 2 CONST_17 ACTION_UP rfl rfl

/-- C14 (counterexample): for base 500 and deviceIndex 15 the rolling-counter field is
`000000000`, of value 0, while (500 + 15) mod 512 = 3. -/
theorem counter_is_not_reduced_mod_512 :
    ((sendMessagePayload 500 15 CONST_17 ACTION_UP).drop 30).take 9 = "000000000".toList ∧
      (500 + 15 : Int) % 512 = 3 ∧
      (binValue (((sendMessagePayload 500 15 CONST_17 ACTION_UP).drop 30).take 9) : Int) ≠
        (500 + 15) % 512 := by
  decide

/-- C14 (amended): for every base >= 0 and deviceIndex in 0..15 whose sum fits an `int`,
the 9-bit rolling-counter field of the frame is the unsigned big-endian encoding of
base + deviceIndex, which is then (base + deviceIndex) mod 512, when
base + deviceIndex <= 511, and it is `000000000` when base + deviceIndex > 511: no
reduction modulo 512 takes place. -/
theorem counter_semantics (base idx : Int) (const17 action2 : List Char)
    (hbase : 0 ≤ base) (hidx : 0 ≤ idx ∧ idx ≤ 15) (hfit : base + idx < 2147483648)
    (h17 : const17.length = 17) :
    (base + idx ≤ 511 →
      (base + idx) % 512 = base + idx ∧
        Encodes 9 ((base + idx) % 512)
          (((sendMessagePayload base idx const17 action2).drop 30).take 9)) ∧
    (511 < base + idx →
      ((sendMessagePayload base idx const17 action2).drop 30).take 9 =
        "000000000".toList) := by
  have hw : wrapInt32 (base + idx) = base + idx :=
    wrapInt32_of_range _ (by omega) hfit
  rw [sendMessagePayload_counter base idx const17 action2 h17, hw]
  refine ⟨fun hle => ?_, fun hgt => ?_⟩
  · have hmod : (base + idx) % 512 = base + idx := by omega
    obtain ⟨n, hn⟩ := Int.eq_ofNat_of_zero_le (show 0 ≤ base + idx by omega)
    refine ⟨hmod, ?_⟩
    rw [hmod, hn]
    exact encodes9_nat n (by omega)
  · rw [byteArrayFromInt9bit_out _ (Or.inr hgt)]

theorem counter_semantics_witness :
    ((346 + 2 : Int) % 512 = 346 + 2 ∧
        Encodes 9 ((346 + 2) % 512)
          (((sendMessagePayload 346 2 CONST_17 ACTION_UP).drop 30).take 9)) ∧
      ((sendMessagePayload 500 15 CONST_17 ACTION_UP).drop 30).take 9 =
        "000000000".toList :=
  ⟨(counter_semantics 346 2 CONST_17 ACTION_UP (by decide) (by decide) (by decide) rfl).1
      (by decide),
    (counter_semantics 500 15 CONST_17 ACTION_UP (by decide) (by decide) (by decide) rfl).2
      (by decide)⟩


/-! ## The length guard -/

/-- The mode request is made exactly when the payload has 41 characters. -/
theorem transmitDirectAsync_mem_iff (base idx : Int) (const17 action2 : List Char)
    (repeats st : Int) :
    Event.transmitDirectAsync ∈ (sendMessage base idx const17 action2 repeats st).2 ↔
      (sendMessagePayload base idx const17 action2).length = 41 := by
  constructor
  · intro hmem
    by_contra hl
    have hfail : (sendMessage base idx const17 action2 repeats st).1 = false := by
      cases hb : (sendMessage base idx const17 action2 repeats st).1 with
      | false => rfl
      | true => exact absurd ((sendMessage_ok_iff _ _ _ _ _ _).1 hb).1 hl
    rcases sendMessage_fail_trace base idx const17 action2 repeats st hfail with
      ⟨_, ht⟩ | ⟨hl41, _, _⟩
    · rw [ht] at hmem
      simp only [List.mem_append, List.mem_singleton] at hmem
      rcases hmem with (h | h) | h
      · exact (serial_is_quiet _ (byteArrayFromInt9bit_log_serial _ _ h)).2.2.2.1 rfl
      · exact (serial_is_quiet _ (byteArrayFromInt_log_serial _ _ h)).2.2.2.1 rfl
      · cases h
    · exact hl hl41
  · exact transmitDirectAsync_mem base idx const17 action2 repeats st

/-- C17: for every integer base and deviceIndex, in range or not, `byteArrayFromInt`
returns exactly 4 characters and `byteArrayFromInt9bit` exactly 9, the payload has
22 + |const17| + |action2| characters, and the length guard of `sendMessage` rejects the
frame (the call returns false without asking the radio to enter direct mode) if and only
if |const17| + |action2| is not 19; with |const17| + |action2| = 19 the call succeeds
exactly when mode entry does, whatever base and deviceIndex are. -/
theorem length_guard_ignores_numbers (base idx : Int) (const17 action2 : List Char)
    (repeats st : Int) :
    (byteArrayFromInt idx).1.length = 4 ∧
      (byteArrayFromInt9bit (wrapInt32 (base + idx))).1.length = 9 ∧
      (sendMessagePayload base idx const17 action2).length =
        22 + const17.length + action2.length ∧
      ((sendMessagePayload base idx const17 action2).length ≠ 41 ↔
        const17.length + action2.length ≠ 19) ∧
      (((sendMessage base idx const17 action2 repeats st).1 = false ∧
          Event.transmitDirectAsync ∉ (sendMessage base idx const17 action2 repeats st).2) ↔
        const17.length + action2.length ≠ 19) ∧
      (const17.length + action2.length = 19 →
        ((sendMessage base idx const17 action2 repeats st).1 = true ↔
          st = RADIOLIB_ERR_NONE)) := by
  have hlen := sendMessagePayload_length base idx const17 action2
  have hiff := sendMessage_ok_iff base idx const17 action2 repeats st
  have hmem := transmitDirectAsync_mem_iff base idx const17 action2 repeats st
  refine ⟨byteArrayFromInt_length _, byteArrayFromInt9bit_length _, hlen, ?_, ?_, ?_⟩
  · rw [hlen]
    omega
  · rw [hmem, hlen]
    constructor
    · rintro ⟨_, h⟩
      omega
    · intro h
      refine ⟨?_, by omega⟩
      cases hb : (sendMessage base idx const17 action2 repeats st).1 with
      | false => rfl
      | true =>
        have := (hiff.1 hb).1
        omega
  · intro h19
    rw [hiff, hlen]
    constructor
    · exact fun h => h.2
    · exact fun h => ⟨by omega, h⟩


theorem length_guard_ignores_numbers_witness :
    (byteArrayFromInt 40).1.length = 4 ∧
      (byteArrayFromInt9bit (wrapInt32 (500 + 40))).1.length = 9 ∧
      (sendMessagePayload 500 40 CONST_17 ACTION_UP).length =
        22 + CONST_17.length + ACTION_UP.length ∧
      (sendMessage 500 40 CONST_17 ACTION_UP 3 RADIOLIB_ERR_NONE).1 = true :=
  have h := length_guard_ignores_numbers 500 40 CONST_17 ACTION_UP 3 RADIOLIB_ERR_NONE
  ⟨h.1, h.2.1, h.2.2.1, (h.2.2.2.2.2 (by decide)).2 rfl⟩

/-! ## Duration of the critical section -/

theorem delaySum_append (l₁ l₂ : List Event) :
    delaySum (l₁ ++ l₂) = delaySum l₁ + delaySum l₂ := by
  induction l₁ with
  | nil => simp [delaySum]
  | cons e l ih =>
    cases e <;> simp [delaySum, ih]
    omega

theorem delaySum_txHigh (us : Nat) : delaySum (txHigh us) = us := by
  simp [txHigh, gpioHigh, delaySum]

theorem delaySum_txLow (us : Nat) : delaySum (txLow us) = us := by
  simp [txLow, gpioLow, delaySum]

theorem delaySum_preamble : delaySum sendPreambleAndTrailer = 20000 := by
  simp only [sendPreambleAndTrailer, delaySum_append, delaySum_txHigh, delaySum_txLow,
    START_HIGH_US, START_LOW_US]

theorem delaySum_sendBitString (s : List Char) :
    delaySum (sendBitString s) =
      750 * s.length + 642 * (s.length - s.count '1') + 1300 * s.count '1' := by
  induction s with
  | nil => rfl
  | cons c s ih =>
    have hle : s.count '1' ≤ s.length := List.count_le_length _ _
    simp only [sendBitString, delaySum_append, delaySum_txHigh, delaySum_txLow, ih,
      List.length_cons, GAP_LOW_US, BIT1_HIGH_US, BIT0_HIGH_US]
    by_cases hc : c = '1'
    · subst hc
      simp only [List.count_cons_self, decide_True, if_true]
      omega
    · have hc2 : s.count '1' = (c :: s).count '1' := by
        rw [List.count_cons_of_ne (Ne.symm hc)]
      rw [← hc2]
      simp only [hc, decide_False, Bool.false_eq_true, if_false]
      omega

theorem delaySum_sendMessageLoop (p : List Char) (n : Nat) :
    delaySum (sendMessageLoop p n) = n * (20000 + delaySum (sendBitString p)) := by
  induction n with
  | zero => simp [sendMessageLoop, delaySum]
  | succ n ih =>
    simp only [sendMessageLoop, delaySum_append, delaySum_preamble, ih]
    ring

/-- C15: in every successful `sendMessage` call with repeat count r >= 0 whose (41-bit)
frame has k characters `'1'`, the delays executed between `noInterrupts` and `interrupts`
add up to exactly (r+1)*20000 + r*(41*750 + 642*(41-k) + 1300*k) microseconds; this is at
most (r+1)*20000 + r*84050, and at most 332150 for r = 3. -/
theorem critical_section_duration (base idx : Int) (const17 action2 : List Char)
    (repeats st : Int) (hr : 0 ≤ repeats)
    (hok : (sendMessage base idx const17 action2 repeats st).1 = true) :
    (repeats.toNat : Int) = repeats ∧
      (sendMessagePayload base idx const17 action2).length = 41 ∧
      delaySum (criticalSection (sendMessage base idx const17 action2 repeats st).2) =
        (repeats.toNat + 1) * 20000 +
          repeats.toNat *
            (41 * 750 + 642 * (41 - (sendMessagePayload base idx const17 action2).count '1')
              + 1300 * (sendMessagePayload base idx const17 action2).count '1') ∧
      delaySum (criticalSection (sendMessage base idx const17 action2 repeats st).2) ≤
        (repeats.toNat + 1) * 20000 + repeats.toNat * 84050 ∧
      (repeats = 3 →
        delaySum (criticalSection (sendMessage base idx const17 action2 repeats st).2) ≤
          332150) := by
  obtain ⟨hl, _⟩ := (sendMessage_ok_iff _ _ _ _ _ _).1 hok
  have hk : (sendMessagePayload base idx const17 action2).count '1' ≤ 41 := by
    rw [← hl]
    exact List.count_le_length _ _
  have hsum : delaySum (criticalSection (sendMessage base idx const17 action2 repeats st).2) =
      (repeats.toNat + 1) * 20000 +
        repeats.toNat *
          (41 * 750 + 642 * (41 - (sendMessagePayload base idx const17 action2).count '1')
            + 1300 * (sendMessagePayload base idx const17 action2).count '1') := by
    rw [criticalSection_ok base idx const17 action2 repeats st hok, delaySum_append,
      delaySum_sendMessageLoop, delaySum_preamble, delaySum_sendBitString, hl]
    ring
  have hinner : 41 * 750 + 642 * (41 - (sendMessagePayload base idx const17 action2).count '1')
      + 1300 * (sendMessagePayload base idx const17 action2).count '1' ≤ 84050 := by
    omega
  have hbound :
      delaySum (criticalSection (sendMessage base idx const17 action2 repeats st).2) ≤
        (repeats.toNat + 1) * 20000 + repeats.toNat * 84050 := by
    rw [hsum]
    exact Nat.add_le_add_left (Nat.mul_le_mul_left _ hinner) _
  refine ⟨Int.toNat_of_nonneg hr, hl, hsum, hbound, ?_⟩
  intro h3
  have hn : repeats.toNat = 3 := by
    rw [h3]
    rfl
  rw [hn] at hbound
  exact hbound

theorem critical_section_duration_witness :
    delaySum (criticalSection (sendMessage BASE_UP 2 CONST_17 ACTION_UP 3
        RADIOLIB_ERR_NONE).2) =
        ((3 : Int).toNat + 1) * 20000 +
          (3 : Int).toNat *
            (41 * 750 + 642 * (41 - (sendMessagePayload BASE_UP 2 CONST_17 ACTION_UP).count '1')
              + 1300 * (sendMessagePayload BASE_UP 2 CONST_17 ACTION_UP).count '1') ∧
      delaySum (criticalSection (sendMessage BASE_UP 2 CONST_17 ACTION_UP 3
        RADIOLIB_ERR_NONE).2) ≤ 332150 :=
  have h := critical_section_duration BASE_UP 2 CONST_17 ACTION_UP 3 RADIOLIB_ERR_NONE
    (by decide) (by decide)
  ⟨h.2.2.1, h.2.2.2.2 rfl⟩


/-! ## The commands of the dispatcher -/

/-- What every handler passes on: the index, `CONST_17`, a 2-character action code and
one of the three base constants. -/
theorem handlerCall_fields (a : Action) (i : Int) :
    (handlerCall a i).idx = i ∧ (handlerCall a i).const17 = CONST_17 ∧
      (handlerCall a i).action2.length = 2 ∧
      ((handlerCall a i).base = 217 ∨ (handlerCall a i).base = 346 ∨
        (handlerCall a i).base = 474) := by
  cases a <;> by_cases hi : i = 1 <;>
    simp [handlerCall, handleRaiseCall, handleLowerCall, handlePauseCall, hi, BASE_UP,
      BASE_DOWN, BASE_STOP, ACTION_UP, ACTION_DOWN, ACTION_STOP]

/-- At a fixed index the three actions use three different base constants. -/
theorem handlerCall_base_injective (a b : Action) (i : Int)
    (h : (handlerCall a i).base = (handlerCall b i).base) : a = b := by
  cases a <;> cases b <;> by_cases hi : i = 1 <;>
    simp [handlerCall, handleRaiseCall, handleLowerCall, handlePauseCall, hi, BASE_UP,
      BASE_DOWN, BASE_STOP] at h ⊢

/-- C16: for each of RAISE, LOWER and PAUSE and every device index i in 0..15, the call
the handlers make passes index i and a base with 0 <= base + i <= 511, so neither
encoder writes its out-of-range diagnostic, the frame has exactly 41 bits, and
`sendMessage` returns true exactly when direct-mode entry succeeds; these are the calls
of the all-device handlers. -/
theorem dispatcher_commands_in_range (a : Action) (i : Nat) (hi : i < 16)
    (repeats st : Int) :
    (handlerCall a i).idx = i ∧
      0 ≤ (handlerCall a i).base + (handlerCall a i).idx ∧
      (handlerCall a i).base + (handlerCall a i).idx ≤ 511 ∧
      (byteArrayFromInt (handlerCall a i).idx).2 = [] ∧
      (byteArrayFromInt9bit
        (wrapInt32 ((handlerCall a i).base + (handlerCall a i).idx))).2 = [] ∧
      (commandFrame a i).length = 41 ∧
      ((sendMessage (handlerCall a i).base (handlerCall a i).idx (handlerCall a i).const17
          (handlerCall a i).action2 repeats st).1 = true ↔ st = RADIOLIB_ERR_NONE) ∧
      (handlerCalls a)[i]? = some (handlerCall a i) := by
  obtain ⟨hidx, hc, h2, hb⟩ := handlerCall_fields a i
  have hlo : 0 ≤ (handlerCall a i).base + (handlerCall a i).idx := by
    rw [hidx]
    omega
  have hhi : (handlerCall a i).base + (handlerCall a i).idx ≤ 511 := by
    rw [hidx]
    omega
  have hl : (commandFrame a i).length = 41 := by
    unfold commandFrame
    rw [sendMessagePayload_length, hc, h2]
    rfl
  refine ⟨hidx, hlo, hhi, ?_, ?_, hl, ?_, handlerCalls_get a i hi⟩
  · rw [hidx]
    exact byteArrayFromInt_log_in _ (by omega) (by omega)
  · rw [wrapInt32_of_range _ (by omega) (by omega)]
    exact byteArrayFromInt9bit_log_in _ hlo hhi
  · rw [sendMessage_ok_iff]
    exact ⟨fun h => h.2, fun h => ⟨hl, h⟩⟩

theorem dispatcher_commands_in_range_witness :
    (handlerCall Action.PAUSE (15 : Nat)).idx = (15 : Nat) ∧
      0 ≤ (handlerCall Action.PAUSE (15 : Nat)).base + (handlerCall Action.PAUSE (15 : Nat)).idx ∧
      (handlerCall Action.PAUSE (15 : Nat)).base + (handlerCall Action.PAUSE (15 : Nat)).idx
        ≤ 511 ∧
      (commandFrame Action.PAUSE (15 : Nat)).length = 41 :=
  have h := dispatcher_commands_in_range Action.PAUSE 15 (by decide) 3 RADIOLIB_ERR_NONE
  ⟨h.1, h.2.1, h.2.2.1, h.2.2.2.2.2.1⟩

/-- C18: over the 48 commands (RAISE, LOWER or PAUSE, device index 0..15), with the base
constant and action code the handlers select, two commands with the same frame are the
same command. -/
theorem command_frames_injective (a b : Action) (i j : Nat) (hi : i < 16) (hj : j < 16)
    (h : commandFrame a i = commandFrame b j) : a = b ∧ i = j := by
  obtain ⟨hai, hac, _, hab⟩ := handlerCall_fields a i
  obtain ⟨hbj, hbc, _, hbb⟩ := handlerCall_fields b j
  have h17 : CONST_17.length = 17 := rfl
  have hidx : (byteArrayFromInt (i : Int)).1 = (byteArrayFromInt (j : Int)).1 := by
    have := congrArg (fun p => (p.drop 3).take 4) h
    simpa only [commandFrame, sendMessagePayload_index, hai, hbj] using this
  have hij : i = j := by
    have hi4 := (encodes4_nat i hi).2.2.1
    have hj4 := (encodes4_nat j hj).2.2.1
    rw [hidx] at hi4
    have : (i : Int) = (j : Int) := hi4.symm.trans hj4
    exact_mod_cast this
  subst hij
  have hctr : (byteArrayFromInt9bit (wrapInt32 ((handlerCall a i).base + i))).1 =
      (byteArrayFromInt9bit (wrapInt32 ((handlerCall b i).base + i))).1 := by
    have := congrArg (fun p => (p.drop 30).take 9) h
    simp only [commandFrame] at this
    rw [sendMessagePayload_counter _ _ _ _ (by rw [hac]; exact h17),
      sendMessagePayload_counter _ _ _ _ (by rw [hbc]; exact h17), hai, hbj] at this
    exact this
  have hbase : (handlerCall a i).base = (handlerCall b i).base := by
    rw [wrapInt32_of_range _ (by omega) (by omega),
      wrapInt32_of_range _ (by omega) (by omega)] at hctr
    obtain ⟨n, hn⟩ := Int.eq_ofNat_of_zero_le
      (show 0 ≤ (handlerCall a i).base + i by omega)
    obtain ⟨m, hm⟩ := Int.eq_ofNat_of_zero_le
      (show 0 ≤ (handlerCall b i).base + i by omega)
    rw [hn, hm] at hctr
    have hn9 := (encodes9_nat n (by omega)).2.2.1
    have hm9 := (encodes9_nat m (by omega)).2.2.1
    rw [hctr] at hn9
    have : (n : Int) = (m : Int) := hn9.symm.trans hm9
    omega
  exact ⟨handlerCall_base_injective a b i hbase, rfl⟩

theorem command_frames_injective_witness :
    (commandFrame Action.LOWER (3 : Nat) = commandFrame Action.LOWER (3 : Nat) ∧
        Action.LOWER = Action.LOWER ∧ 3 = 3) ∧
      commandFrame Action.LOWER (3 : Nat) ≠ commandFrame Action.PAUSE (3 : Nat) ∧
      (handlerCall Action.LOWER (3 : Nat)).action2 =
        (handlerCall Action.PAUSE (3 : Nat)).action2 :=
  ⟨⟨rfl,
      command_frames_injective Action.LOWER Action.LOWER 3 3 (by decide) (by decide) rfl⟩,
    fun h =>
      absurd
        (command_frames_injective Action.LOWER Action.PAUSE 3 3 (by decide) (by decide) h).1
        (by decide),
    rfl⟩

end Zaluzie
